import Mathlib

/-!
# ChessConsole: the C++ engine manager and the command-building handlers

A shallow embedding of `engine_manager.go` (`CppEngineManager`: `SendCommand`,
`SendCommandWithCustomTimeout`, `Close`) and of the command-building and
reply-handling code of `main.go` (`handleNewGame`, `handleMakeMove`,
`handleGetEngineMove`).

The manager talks to an operating-system process.  Everything the code only
observes (the result of a write on the stdin pipe, what the reader goroutine
obtains from `m.stdout.Scan()` and when, what the exit-watcher goroutine has
stored in `cmd.ProcessState`, the result of `Process.Kill()`) is passed to the
embedded functions as an explicit environment argument; everything the code
decides is computed by the functions below.  Every exported method holds
`m.mu` from its first to its last statement, so calls are modelled as taking
place one after the other, in lock-acquisition order.
-/

namespace ChessConsole

/-! ## Strings -/

/-- Go strings, represented by the sequence of their runes.  The strings of
this program are UTF-8 text, on which the byte-wise tests of the `strings`
package and the rune-wise tests below agree. -/
abbrev Str := List Char

/-- The newline rune written by `fmt.Fprintln` after its operands. -/
def newline : Char := Char.ofNat 10

/-- Go `strings.HasPrefix(s, p)`. -/
def HasPrefix (s p : Str) : Bool := p.isPrefixOf s

/-- Go `strings.TrimPrefix(s, p)`: `s` without the leading `p` when `s` starts
with `p`, and `s` unchanged otherwise. -/
def TrimPrefix (s p : Str) : Str := if HasPrefix s p then s.drop p.length else s

/-! ## Errors built by `fmt.Errorf` in `engine_manager.go` -/

/-- The errors the manager returns, one constructor per `fmt.Errorf` format
string of `engine_manager.go`; the argument is the value formatted into it. -/
inductive EngineError where
  /-- The error "C++ engine process is not running". -/
  | notRunning
  /-- The error "failed to send command to C++ engine: %w". -/
  | sendFailed (cause : Str)
  /-- The error "C++ engine error: %s". -/
  | engineError (payload : Str)
  /-- The error "failed to read response from C++ engine: %w". -/
  | readFailed (cause : Str)
  /-- The error "timeout waiting for response from C++ engine for command: %s". -/
  | timeout (command : Str)
  /-- The error "failed to kill C++ engine process: %w". -/
  | killFailed (cause : Str)
  deriving DecidableEq, Repr

/-- The text of an error (Go `err.Error()`). -/
def EngineError.Error : EngineError → Str
  | .notRunning => "C++ engine process is not running".toList
  | .sendFailed cause => "failed to send command to C++ engine: ".toList ++ cause
  | .engineError payload => "C++ engine error: ".toList ++ payload
  | .readFailed cause => "failed to read response from C++ engine: ".toList ++ cause
  | .timeout command =>
      "timeout waiting for response from C++ engine for command: ".toList ++ command
  | .killFailed cause => "failed to kill C++ engine process: ".toList ++ cause

/-! ## The worker process as the manager sees it -/

/-- How a terminated process ended, as recorded by `cmd.Wait()`: it called
exit with a code, or it was terminated by a signal (this is what
`Process.Kill()` does on Unix systems). -/
inductive WaitStatus where
  | exit (code : Nat)
  | signal (sig : Nat)
  deriving DecidableEq, Repr

/-- Go `os.ProcessState`: information about a process that has terminated. -/
structure ProcessState where
  status : WaitStatus
  deriving DecidableEq, Repr

/-- Go `ProcessState.Exited()`: "on Unix systems this reports true if the
program exited due to calling exit, but false if the program terminated due to
a signal". -/
def ProcessState.Exited (ps : ProcessState) : Bool :=
  match ps.status with
  | .exit _ => true
  | .signal _ => false

/-- Go `exec.Cmd`, reduced to the one field the manager reads:
`ProcessState` is nil until the exit-watcher goroutine's `cmd.Wait()` has
returned, and holds the recorded termination afterwards. -/
structure Cmd where
  ProcessState : Option ProcessState
  deriving DecidableEq, Repr

/-- The write end of the worker's stdin pipe: the bytes delivered so far and
whether `Close()` has been called on it. -/
structure Stdin where
  written : Str
  closed : Bool
  deriving DecidableEq, Repr

/-- The `CppEngineManager` struct.  `cmd` is nil for a manager whose process
was never started.  `stdin` is the pipe of a manager built by
`NewCppEngineManager`, the only constructor, which always sets it.
`blockedReaders` describes the shared `m.stdout` scanner: the reader
goroutines of earlier calls that are still inside `m.stdout.Scan()`, each
named by the command whose response it was started for. -/
structure CppEngineManager where
  cmd : Option Cmd
  stdin : Stdin
  blockedReaders : List Str
  deriving DecidableEq, Repr

/-- The manager returned by a successful `NewCppEngineManager`: process
started, nothing written, nobody reading yet. -/
def NewCppEngineManager : CppEngineManager :=
  { cmd := some { ProcessState := none }
    stdin := { written := [], closed := false }
    blockedReaders := [] }

/-- The guard shared by `SendCommand`, `SendCommandWithCustomTimeout` and
`Close`:
`m.cmd == nil || m.cmd.ProcessState != nil && m.cmd.ProcessState.Exited()`. -/
def processNotRunning (m : CppEngineManager) : Bool :=
  match m.cmd with
  | none => true
  | some cmd =>
    match cmd.ProcessState with
    | none => false
    | some ps => ps.Exited

/-- The re-check in `Close`:
`m.cmd.ProcessState == nil || !m.cmd.ProcessState.Exited()`. -/
def didNotExit (ps : Option ProcessState) : Bool :=
  match ps with
  | none => true
  | some s => !s.Exited

/-! ## Effects -/

/-- What a call did to the outside world, in program order. -/
inductive Action where
  /-- The call `Write(data)` on `m.stdin`, made by `fmt.Fprintln`. -/
  | write (data : Str)
  /-- The statement `go func() { if m.stdout.Scan() ... }()`. -/
  | spawnReader
  /-- The statement `time.Sleep(100 * time.Millisecond)`. -/
  | sleep
  /-- The call `m.cmd.Process.Kill()`. -/
  | kill
  /-- The call `m.stdin.Close()`. -/
  | closeStdin
  deriving DecidableEq, Repr

/-- What the operating system does with one `Write` on an open pipe: accept
everything, or accept the first `n` bytes and report an error. -/
inductive WriteOutcome where
  | ok
  | fail (n : Nat) (err : Str)
  deriving DecidableEq, Repr

/-- The text of the error a write on the closed stdin pipe returns: an
`*fs.PathError` with operation `write`, path `|1` and cause `os.ErrClosed`. -/
def errClosed : Str := "write |1: file already closed".toList

/-- Go `fmt.Fprintln(w, s)` on the stdin pipe: one `Write` of `s` followed by
a newline.  Returns the pipe afterwards and the error, if any. -/
def Fprintln (w : Stdin) (s : Str) (o : WriteOutcome) : Stdin × Option Str :=
  let data := s ++ [newline]
  if w.closed then (w, some errClosed)
  else
    match o with
    | .ok => ({ w with written := w.written ++ data }, none)
    | .fail n err => ({ w with written := w.written ++ data.take n }, some err)

/-! ## Time, the reader goroutine and the `select` statement -/

/-- Go `time.Duration`: a signed number of nanoseconds. -/
abbrev Duration := Int

/-- Go `time.Millisecond`. -/
def Millisecond : Duration := 1000000

/-- Go `time.Second`. -/
def Second : Duration := 1000 * Millisecond

/-- What `m.stdout.Scan()` gives the reader goroutine: a line (`Scan()` is
true and `Text()` is the line), or no line (`Scan()` is false and `Err()` is
the recorded error, nil at end of stream). -/
inductive ScanOutcome where
  | token (text : Str)
  | stop (err : Option Str)
  deriving DecidableEq, Repr

/-- The one channel send the reader goroutine performs. -/
inductive ReaderSend where
  /-- The send `responseChannel <- response`. -/
  | response (res : Str)
  /-- The send `errorChannel <- err`. -/
  | error (err : EngineError)
  deriving DecidableEq, Repr

/-- The text of the error the reader substitutes when `Scan()` is false and
`Err()` is nil. -/
def errNoResponse : Str := "C++ engine closed stdout unexpectedly or no response".toList

/-- The body of the reader goroutine, after `m.stdout.Scan()` has returned. -/
def readerGoroutine (scan : ScanOutcome) : ReaderSend :=
  match scan with
  | .token response =>
    if HasPrefix response "ERROR:".toList then
      .error (.engineError (TrimPrefix response "ERROR: ".toList))
    else
      .response response
  | .stop err =>
    .error (.readFailed (match err with
      | none => errNoResponse
      | some e => e))

/-- What happens on the output stream while the caller waits in `select`.
`arrival` is the time, in nanoseconds after the `select` was entered, at which
the `Scan()` of this call's reader returns, with what it returns; `none` when
it has not returned by the time the call is over.  `timerFirst` is the choice
`select` makes when the reader's send and the timer are ready together. -/
structure ReadEnv where
  arrival : Option (Nat × ScanOutcome)
  timerFirst : Bool
  deriving DecidableEq, Repr

/-- The case of the `select` statement that runs. -/
inductive Selected where
  /-- One of the cases `<-responseChannel`, `<-errorChannel`. -/
  | fromReader (s : ReaderSend)
  /-- The case `<-time.After(timeout)`; the flag tells whether the reader
  goroutine is still inside `m.stdout.Scan()` at that moment. -/
  | timerFired (readerInScan : Bool)
  deriving DecidableEq, Repr

/-- The `select` over `responseChannel`, `errorChannel` and
`time.After(timeout)`.  The timer fires `timeout` nanoseconds after the
`select` was entered, at once when `timeout` is not positive. -/
def selectCase (timeout : Duration) (env : ReadEnv) : Selected :=
  match env.arrival with
  | none => .timerFired true
  | some (t, scan) =>
    if t < timeout.toNat then .fromReader (readerGoroutine scan)
    else if timeout.toNat < t then .timerFired true
    else if env.timerFirst then .timerFired false
    else .fromReader (readerGoroutine scan)

/-! ## `SendCommand` and `SendCommandWithCustomTimeout` -/

/-- The environment of one command round trip. -/
structure SendEnv where
  write : WriteOutcome
  read : ReadEnv
  deriving DecidableEq, Repr

/-- The two values a send method returns, the manager afterwards, and what
the call did. -/
structure SendResult where
  response : Str
  err : Option EngineError
  manager : CppEngineManager
  actions : List Action
  deriving DecidableEq, Repr

/-- The method `SendCommand`. -/
def SendCommand (m : CppEngineManager) (command : Str) (env : SendEnv) : SendResult :=
  if processNotRunning m then
    { response := [], err := some .notRunning, manager := m, actions := [] }
  else
    match Fprintln m.stdin command env.write with
    | (stdin1, some e) =>
      { response := [], err := some (.sendFailed e)
        manager := { m with stdin := stdin1 }
        actions := [.write (command ++ [newline])] }
    | (stdin1, none) =>
      let m1 := { m with stdin := stdin1 }
      let acts := [.write (command ++ [newline]), .spawnReader]
      match selectCase (5 * Second) env.read with
      | .fromReader (.response res) =>
        { response := res, err := none, manager := m1, actions := acts }
      | .fromReader (.error err) =>
        { response := [], err := some err, manager := m1, actions := acts }
      | .timerFired inScan =>
        { response := [], err := some (.timeout command)
          manager :=
            if inScan then { m1 with blockedReaders := m1.blockedReaders ++ [command] }
            else m1
          actions := acts }

/-- The method `SendCommandWithCustomTimeout`. -/
def SendCommandWithCustomTimeout (m : CppEngineManager) (command : Str)
    (timeout : Duration) (env : SendEnv) : SendResult :=
  if processNotRunning m then
    { response := [], err := some .notRunning, manager := m, actions := [] }
  else
    match Fprintln m.stdin command env.write with
    | (stdin1, some e) =>
      { response := [], err := some (.sendFailed e)
        manager := { m with stdin := stdin1 }
        actions := [.write (command ++ [newline])] }
    | (stdin1, none) =>
      let m1 := { m with stdin := stdin1 }
      let acts := [.write (command ++ [newline]), .spawnReader]
      match selectCase timeout env.read with
      | .fromReader (.response res) =>
        { response := res, err := none, manager := m1, actions := acts }
      | .fromReader (.error err) =>
        { response := [], err := some err, manager := m1, actions := acts }
      | .timerFired inScan =>
        { response := [], err := some (.timeout command)
          manager :=
            if inScan then { m1 with blockedReaders := m1.blockedReaders ++ [command] }
            else m1
          actions := acts }

/-! ## `Close` -/

/-- The environment of one `Close` call: the result of writing `QUIT`, what
the exit-watcher goroutine stores in `cmd.ProcessState` between the guard and
the second read of that field (nothing, or the recorded termination; ignored
when a termination was recorded earlier, since `cmd.Wait()` returns once), and
the result of `Process.Kill()` should it be called. -/
structure CloseEnv where
  write : WriteOutcome
  watcher : Option ProcessState
  kill : Option Str
  deriving DecidableEq, Repr

/-- The value `Close` returns, the manager afterwards, and what the call
did. -/
structure CloseResult where
  err : Option EngineError
  manager : CppEngineManager
  actions : List Action
  deriving DecidableEq, Repr

/-- The field `cmd.ProcessState` after the exit-watcher may have stored
`watcher` in it. -/
def observe (cmd : Cmd) (watcher : Option ProcessState) : Cmd :=
  match cmd.ProcessState with
  | some ps => { ProcessState := some ps }
  | none => { ProcessState := watcher }

/-- The stdin pipe after the exit-watcher may have stored `watcher`: the
`cmd.Wait()` that records the termination also closes the pipe returned by
`cmd.StdinPipe()`. -/
def pipeAfterWait (cmd : Cmd) (watcher : Option ProcessState) (stdin : Stdin) : Stdin :=
  match cmd.ProcessState, watcher with
  | none, some _ => { stdin with closed := true }
  | _, _ => stdin

/-- The method `Close`. -/
def Close (m : CppEngineManager) (env : CloseEnv) : CloseResult :=
  match m.cmd with
  | none => { err := none, manager := m, actions := [] }
  | some cmd =>
    if processNotRunning m then
      { err := none, manager := m, actions := [] }
    else
      let (stdin1, werr) := Fprintln m.stdin "QUIT".toList env.write
      let acts : List Action :=
        match werr with
        | some _ => [.write ("QUIT".toList ++ [newline])]
        | none => [.write ("QUIT".toList ++ [newline]), .sleep]
      let cmd1 := observe cmd env.watcher
      let stdin2 := pipeAfterWait cmd env.watcher stdin1
      let m1 := { m with cmd := some cmd1, stdin := stdin2 }
      if didNotExit cmd1.ProcessState then
        match env.kill with
        | some e =>
          { err := some (.killFailed e), manager := m1, actions := acts ++ [.kill] }
        | none =>
          { err := none
            manager := { m1 with stdin := { stdin2 with closed := true } }
            actions := acts ++ [.kill, .closeStdin] }
      else
        { err := none
          manager := { m1 with stdin := { stdin2 with closed := true } }
          actions := acts ++ [.closeStdin] }

/-! ## Runs of the manager -/

/-- One thing that happens to a manager: a method call with its environment,
or a step of one of the background goroutines. -/
inductive Event where
  | sendCommand (command : Str) (env : SendEnv)
  | sendCommandWithCustomTimeout (command : Str) (timeout : Duration) (env : SendEnv)
  | close (env : CloseEnv)
  /-- The exit-watcher: `cmd.Wait()` returns, stores the process state and
  closes the stdin pipe. -/
  | waitReturns (ps : ProcessState)
  /-- The `Scan()` of the `i`-th blocked reader of an earlier call returns; the
  goroutine then blocks for ever on a channel nobody receives from. -/
  | scanReturns (i : Nat)
  deriving DecidableEq, Repr

/-- The manager after one event. -/
def step (m : CppEngineManager) (e : Event) : CppEngineManager :=
  match e with
  | .sendCommand command env => (SendCommand m command env).manager
  | .sendCommandWithCustomTimeout command timeout env =>
    (SendCommandWithCustomTimeout m command timeout env).manager
  | .close env => (Close m env).manager
  | .waitReturns ps =>
    match m.cmd with
    | none => m
    | some cmd =>
      { m with cmd := some (observe cmd (some ps))
               stdin := pipeAfterWait cmd (some ps) m.stdin }
  | .scanReturns i => { m with blockedReaders := m.blockedReaders.eraseIdx i }

/-- The manager after a sequence of events. -/
def run (m : CppEngineManager) (es : List Event) : CppEngineManager :=
  es.foldl step m

/-- The actions of one event (none for a step of a background goroutine). -/
def actionsOf (m : CppEngineManager) (e : Event) : List Action :=
  match e with
  | .sendCommand command env => (SendCommand m command env).actions
  | .sendCommandWithCustomTimeout command timeout env =>
    (SendCommandWithCustomTimeout m command timeout env).actions
  | .close env => (Close m env).actions
  | .waitReturns _ => []
  | .scanReturns _ => []

/-- Whether an event hands a line to `Write` on the input stream. -/
def writesLine (m : CppEngineManager) (e : Event) : Bool :=
  (actionsOf m e).any (fun a =>
    match a with
    | .write _ => true
    | _ => false)

/-- The discipline of one request in flight, along a run: whenever an event
writes a line to the input stream, no reader of an earlier call is still
inside `m.stdout.Scan()`. -/
def oneInFlight (m : CppEngineManager) : List Event → Bool
  | [] => true
  | e :: es => (m.blockedReaders.isEmpty || !writesLine m e) && oneInFlight (step m e) es

/-! ## `main.go`: building commands and reading replies -/

/-- Go `unicode.IsSpace`: the white space runes of Unicode. -/
def IsSpace (c : Char) : Bool :=
  let n := c.toNat
  (9 ≤ n && n ≤ 13) || n == 32 || n == 0x85 || n == 0xA0 || n == 0x1680 ||
    (0x2000 ≤ n && n ≤ 0x200A) || n == 0x2028 || n == 0x2029 || n == 0x202F ||
    n == 0x205F || n == 0x3000

/-- Go `strings.TrimSpace`. -/
def TrimSpace (s : Str) : Str := (s.dropWhile IsSpace).rdropWhile IsSpace

/-- Go `strings.ToUpper`, which maps every rune through `unicode.ToUpper`;
that table is not part of the repository and is the parameter `upper`. -/
def ToUpper (upper : Char → Char) (s : Str) : Str := s.map upper

/-- Go `strings.Fields`: the maximal runs of runes that are not white space. -/
def Fields (s : Str) : List Str := (s.splitOnP IsSpace).filter (fun f => !f.isEmpty)

/-- Go `strings.Join`. -/
def Join (parts : List Str) (sep : Str) : Str := sep.intercalate parts

/-- The starting position used by `handleNewGame` when the request has no FEN. -/
def startFEN : Str := "rnbqkbnr/pppppppp/8/8/8/8/PPPPPPPP/RNBQKBNR w KQkq - 0 1".toList

/-- The command `handleNewGame` passes to `SendCommandWithCustomTimeout`.
`bindErr` tells whether `c.ShouldBindJSON(&req)` returned an error and `fen`
is `req.FEN` after binding.  The handlers build their commands with
`fmt.Sprintf`, although `main.go` does not list `fmt` among its imports; the
commands are what `fmt.Sprintf` with a `%s` verb yields, the operands copied
unchanged. -/
def newGameCommand (upper : Char → Char) (bindErr : Bool) (fen : Str) : Str :=
  let reqFEN : Str :=
    if bindErr then
      (if fen = [] then startFEN else fen)
    else if fen = [] then startFEN
    else fen
  let fenToSend : Str :=
    if TrimSpace reqFEN = [] || ToUpper upper (TrimSpace reqFEN) = "DEFAULT".toList then
      "DEFAULT".toList
    else reqFEN
  "NEW_GAME ".toList ++ fenToSend

/-- The command `handleMakeMove` passes to `SendCommandWithCustomTimeout`, or
`none` when the handler answers without calling the engine (empty game id,
bad request, unknown game).  `gameStates` is the map from game id to stored
FEN, `move` is `req.Move` after binding. -/
def makeMoveCommand (gameStates : Str → Option Str) (gameID : Str) (bindErr : Bool)
    (move : Str) : Option Str :=
  if gameID = [] then none
  else if bindErr || move = [] then none
  else
    match gameStates gameID with
    | none => none
    | some currentFEN => some ("MAKE_MOVE ".toList ++ currentFEN ++ " ".toList ++ move)

/-- How `handleMakeMove` answers once the engine call has returned. -/
inductive MakeMoveReply where
  /-- Status 500, "Failed to communicate with chess engine: " and the error. -/
  | communicationFailure (msg : Str)
  /-- Status 400, "Chess engine error: " and the message. -/
  | engineError (msg : Str)
  /-- Status 500, "Unexpected response from chess engine: " and the response. -/
  | unexpected (response : Str)
  /-- Status 200; the stored FEN of the game becomes `newBoardFEN`. -/
  | processed (newBoardFEN : Str)
  deriving DecidableEq, Repr

/-- The part of `handleMakeMove` that follows the engine call. -/
def handleMakeMoveReply (response : Str) (err : Option EngineError) : MakeMoveReply :=
  match err with
  | some e => .communicationFailure e.Error
  | none =>
    if HasPrefix response "ERROR:".toList then
      .engineError (TrimPrefix response "ERROR: ".toList)
    else if !HasPrefix response "FEN: ".toList then
      .unexpected response
    else
      .processed (TrimPrefix response "FEN: ".toList)

/-- How `handleGetEngineMove` answers once the engine call has returned. -/
inductive EngineMoveReply where
  /-- Status 500, "Failed to communicate with chess engine for engine move: ". -/
  | communicationFailure (msg : Str)
  /-- Status 400, "Chess engine error on get engine move: " and the message. -/
  | engineError (msg : Str)
  /-- Status 500, "Unexpected response from chess engine for engine move: ". -/
  | unexpected (response : Str)
  /-- Status 500, "Malformed response from chess engine: ". -/
  | malformed (response : Str)
  /-- Status 200 with the stored FEN left as it is. -/
  | noMove (engineMove : Str)
  /-- Status 200; the stored FEN of the game becomes `newBoardFEN`. -/
  | moved (engineMove newBoardFEN : Str)
  deriving DecidableEq, Repr

/-- The part of `handleGetEngineMove` that follows the engine call. -/
def handleGetEngineMoveReply (response : Str) (err : Option EngineError) :
    EngineMoveReply :=
  match err with
  | some e => .communicationFailure e.Error
  | none =>
    if HasPrefix response "ERROR:".toList then
      .engineError (TrimPrefix response "ERROR: ".toList)
    else if !HasPrefix response "MOVE: ".toList then
      .unexpected response
    else
      match Fields response with
      | p0 :: engineMove :: p2 :: p3 :: rest =>
        if p0 ≠ "MOVE:".toList || p2 ≠ "FEN:".toList then .malformed response
        else if engineMove = "NOMOVE".toList then .noMove engineMove
        else .moved engineMove (Join (p3 :: rest) " ".toList)
      | _ => .malformed response

/-- Whether a string contains a newline. -/
def hasNewline (s : Str) : Bool := s.contains newline

/-! ## `main.go`: the handlers as steps of the server state -/

/-- The constant `DefaultCommandTimeout`. -/
def DefaultCommandTimeout : Duration := 5 * Second

/-- The constant `EngineThinkTime`. -/
def EngineThinkTime : Duration := 30 * Second

/-- The package-level state of `main.go`: `globalEngineManager` and the map
`gameStates` from game id to current FEN. -/
structure Server where
  manager : CppEngineManager
  gameStates : Str → Option Str

/-- The assignment `gameStates[gameID] = fen`. -/
def store (gameStates : Str → Option Str) (gameID fen : Str) : Str → Option Str :=
  fun id => if id = gameID then some fen else gameStates id

/-- The server at start-up: a started engine and no game. -/
def startServer : Server :=
  { manager := NewCppEngineManager, gameStates := fun _ => none }

/-- The handler `handleNewGame`, as far as the server state goes.  `generated`
is the result of `generateGameID()`, `none` when it fails. -/
def handleNewGame (upper : Char → Char) (s : Server) (bindErr : Bool) (fen : Str)
    (env : SendEnv) (generated : Option Str) : Server :=
  let cppCommand := newGameCommand upper bindErr fen
  let r := SendCommandWithCustomTimeout s.manager cppCommand DefaultCommandTimeout env
  match r.err with
  | some _ => { s with manager := r.manager }
  | none =>
    if !HasPrefix r.response "FEN: ".toList then { s with manager := r.manager }
    else
      let boardFEN := TrimPrefix r.response "FEN: ".toList
      match generated with
      | none => { s with manager := r.manager }
      | some gameID =>
        { manager := r.manager, gameStates := store s.gameStates gameID boardFEN }

/-- The handler `handleMakeMove`, as far as the server state goes. -/
def handleMakeMove (s : Server) (gameID : Str) (bindErr : Bool) (move : Str)
    (env : SendEnv) : Server :=
  match makeMoveCommand s.gameStates gameID bindErr move with
  | none => s
  | some cppCommand =>
    let r := SendCommandWithCustomTimeout s.manager cppCommand DefaultCommandTimeout env
    match handleMakeMoveReply r.response r.err with
    | .processed newBoardFEN =>
      { manager := r.manager, gameStates := store s.gameStates gameID newBoardFEN }
    | _ => { s with manager := r.manager }

/-- The command `handleGetEngineMove` passes to `SendCommandWithCustomTimeout`,
or `none` when the handler answers without calling the engine. -/
def getEngineMoveCommand (gameStates : Str → Option Str) (gameID : Str) : Option Str :=
  if gameID = [] then none
  else
    match gameStates gameID with
    | none => none
    | some currentFEN => some ("GET_ENGINE_MOVE ".toList ++ currentFEN)

/-- The handler `handleGetEngineMove`, as far as the server state goes. -/
def handleGetEngineMove (s : Server) (gameID : Str) (env : SendEnv) : Server :=
  match getEngineMoveCommand s.gameStates gameID with
  | none => s
  | some cppCommand =>
    let r := SendCommandWithCustomTimeout s.manager cppCommand EngineThinkTime env
    match handleGetEngineMoveReply r.response r.err with
    | .moved _ newBoardFEN =>
      { manager := r.manager, gameStates := store s.gameStates gameID newBoardFEN }
    | _ => { s with manager := r.manager }

/-- A request to one of the three handlers that call the engine, with the
environment of its engine call. -/
inductive Request where
  | newGame (bindErr : Bool) (fen : Str) (env : SendEnv) (generated : Option Str)
  | makeMove (gameID : Str) (bindErr : Bool) (move : Str) (env : SendEnv)
  | getEngineMove (gameID : Str) (env : SendEnv)
  deriving DecidableEq, Repr

/-- The environment of the engine call of a request. -/
def Request.env : Request → SendEnv
  | .newGame _ _ env _ => env
  | .makeMove _ _ _ env => env
  | .getEngineMove _ env => env

/-- The server after one request.  Handlers are taken one after the other; each
reads and writes `gameStates` under its lock and makes one engine call. -/
def serve (upper : Char → Char) (s : Server) (req : Request) : Server :=
  match req with
  | .newGame bindErr fen env generated => handleNewGame upper s bindErr fen env generated
  | .makeMove gameID bindErr move env => handleMakeMove s gameID bindErr move env
  | .getEngineMove gameID env => handleGetEngineMove s gameID env

/-- The server after a sequence of requests. -/
def serveAll (upper : Char → Char) (s : Server) (reqs : List Request) : Server :=
  reqs.foldl (serve upper) s

/-- The guarantee of `bufio.Scanner` with its default split function
`ScanLines`: a token is a line without its end-of-line marker, so it contains
no newline. -/
def scansLine (env : SendEnv) : Bool :=
  match env.read.arrival with
  | some (_, .token text) => !hasNewline text
  | _ => true

/-! ## The output stream and the scanner `m.stdout`

`engine_manager.go` reads the worker's output through one `bufio.Scanner`
(`bufio.NewScanner(stdoutPipe)`, split function `ScanLines`).  The scanner
keeps state between calls: the bytes it has read and not yet returned, and the
first error it met.  That state is modelled for a scanner used by one goroutine
at a time.  When a reader of an earlier call is still inside `Scan()` the new
reader runs concurrently with it on the same scanner, which `bufio` does not
support; what the new reader obtains is then left to the environment. -/

/-- Go `bufio.MaxScanTokenSize`, the buffer limit set by `bufio.NewScanner`. -/
def MaxScanTokenSize : Nat := 64 * 1024

/-- The carriage return rune. -/
def carriageReturn : Char := Char.ofNat 13

/-- The helper `dropCR` of `bufio.ScanLines`: drops one trailing carriage
return. -/
def dropCR (s : Str) : Str :=
  if s.getLast? = some carriageReturn then s.dropLast else s

/-- The bytes of `s` before its first newline (all of `s` when it has none). -/
def firstLine (s : Str) : Str := s.takeWhile (fun c => c != newline)

/-- The error recorded in the scanner (the field `s.err`). -/
inductive ScanErr where
  /-- The error `io.EOF`: the stream has ended. -/
  | eof
  /-- The error `bufio.ErrTooLong`: the buffer is full and holds no newline. -/
  | tooLong
  /-- Any other error returned by a read on the pipe. -/
  | read (text : Str)
  deriving DecidableEq, Repr

/-- Go `Scanner.Err()`: the recorded error, nil when it is `io.EOF`. -/
def ScanErr.Err : ScanErr → Option Str
  | .eof => none
  | .tooLong => some "bufio.Scanner: token too long".toList
  | .read text => some text

/-- The state of `m.stdout`.  `unread` is the part of the output stream that
no `Scan()` has returned yet: the scanner's buffer `s.buf[s.start:s.end]`
followed by what waits in the pipe (after `ErrTooLong` only the full buffer,
since the scanner reads no further).  `err` is the field `s.err`. -/
structure Scanner where
  unread : Str
  err : Option ScanErr
  deriving DecidableEq, Repr

/-- One call of `Scan()` by the only goroutine using the scanner, with the
bytes available so far: the outcome and the scanner afterwards, or `none` when
the call has to wait for more bytes.  With an error recorded, `ScanLines` is
run at end of input: it returns the next line, or the remaining bytes as a
last token, and `Scan()` is false once nothing remains.  Without one, a line
is returned if its newline fits into the buffer, and `ErrTooLong` is recorded
once the buffer is full without a newline. -/
def Scanner.Scan (sc : Scanner) : Option (ScanOutcome × Scanner) :=
  let line := firstLine sc.unread
  match sc.err with
  | some e =>
    if line.length < sc.unread.length then
      some (.token (dropCR line), { sc with unread := sc.unread.drop (line.length + 1) })
    else if sc.unread.isEmpty then
      some (.stop e.Err, { sc with unread := [] })
    else
      some (.token (dropCR sc.unread), { sc with unread := [] })
  | none =>
    if line.length < sc.unread.length && line.length < MaxScanTokenSize then
      some (.token (dropCR line), { sc with unread := sc.unread.drop (line.length + 1) })
    else if MaxScanTokenSize ≤ sc.unread.length then
      some (.stop (ScanErr.tooLong).Err,
        { unread := sc.unread.take MaxScanTokenSize, err := some .tooLong })
    else
      none

/-- What appears at the read end of the stdout pipe: bytes written by the
worker, or the end of the stream (end of file when `err` is `none`, a read
error otherwise). -/
inductive WorkerWrite where
  | data (bytes : Str)
  | close (err : Option Str)
  deriving DecidableEq, Repr

/-- The scanner after a blocked `Scan()` has read what appeared on the pipe. -/
def Scanner.receive (sc : Scanner) (ww : WorkerWrite) : Scanner :=
  match ww with
  | .data bytes => { sc with unread := sc.unread ++ bytes }
  | .close none => { sc with err := some .eof }
  | .close (some e) => { sc with err := some (.read e) }

/-- The environment of one command round trip, at the level of the stream.
`write` is the result of the write on stdin.  `output` is what appears on the
worker's stdout after the command was written, and when (nanoseconds after
the `select` was entered); `none` when nothing appears while the caller
waits.  `race` is what the `Scan()` of this call's reader returns, and when,
in case a reader of an earlier call is still inside `Scan()` on the same
scanner.  `timerFirst` is the choice `select` makes when the reader's send and
the timer are ready together. -/
structure WorkerEnv where
  write : WriteOutcome
  output : Option (Nat × WorkerWrite)
  race : Option (Nat × ScanOutcome)
  timerFirst : Bool
  deriving DecidableEq, Repr

/-- The manager together with the state of its scanner. -/
structure World where
  manager : CppEngineManager
  stdout : Scanner
  deriving DecidableEq, Repr

/-- The world after a successful `NewCppEngineManager`. -/
def startWorld : World :=
  { manager := NewCppEngineManager, stdout := { unread := [], err := none } }

/-- What the `Scan()` of a newly started reader returns: the time, the outcome
and the scanner afterwards; `none` when it does not return.  With a reader of
an earlier call still inside `Scan()` the environment decides.  Otherwise the
scanner decides: at once if it can return with what it holds, else when the
worker's output appears, if it can return then. -/
def World.readerSees (w : World) (env : WorkerEnv) : Option (Nat × ScanOutcome × Scanner) :=
  if !w.manager.blockedReaders.isEmpty then
    match env.race with
    | some (t, o) => some (t, o, w.stdout)
    | none => none
  else
    match w.stdout.Scan with
    | some (o, sc) => some (0, o, sc)
    | none =>
      match env.output with
      | none => none
      | some (t, ww) =>
        match (w.stdout.receive ww).Scan with
        | some (o, sc) => some (t, o, sc)
        | none => none

/-- One round trip of a send method on the world: the method runs with what
its reader sees, and the scanner advances if the reader was started and its
`Scan()` has returned by the time the method returns. -/
def World.roundTrip (w : World) (method : SendEnv → SendResult) (timeout : Duration)
    (env : WorkerEnv) : SendResult × World :=
  let sees := w.readerSees env
  let r := method
    { write := env.write
      read := { arrival := sees.map (fun x => (x.1, x.2.1)), timerFirst := env.timerFirst } }
  let stdout :=
    match sees with
    | some (t, _, sc) =>
      if r.actions.contains .spawnReader && decide (t ≤ timeout.toNat) then sc else w.stdout
    | none => w.stdout
  (r, { manager := r.manager, stdout := stdout })

/-- The method `SendCommand` on the world. -/
def World.SendCommand (w : World) (command : Str) (env : WorkerEnv) : SendResult × World :=
  w.roundTrip (ChessConsole.SendCommand w.manager command) (5 * Second) env

/-- The method `SendCommandWithCustomTimeout` on the world. -/
def World.SendCommandWithCustomTimeout (w : World) (command : Str) (timeout : Duration)
    (env : WorkerEnv) : SendResult × World :=
  w.roundTrip (ChessConsole.SendCommandWithCustomTimeout w.manager command timeout) timeout env

/-- One call of a send method: the command, the timeout (`none` for
`SendCommand`) and the environment. -/
structure Call where
  command : Str
  timeout : Option Duration
  env : WorkerEnv
  deriving DecidableEq, Repr

/-- The timeout of a call: five seconds for `SendCommand`. -/
def Call.duration (c : Call) : Duration :=
  match c.timeout with
  | none => 5 * Second
  | some d => d

/-- The time after which the timer of a call fires. -/
def Call.deadline (c : Call) : Nat := c.duration.toNat

/-- The world and the result of one call. -/
def World.call (w : World) (c : Call) : SendResult × World :=
  match c.timeout with
  | none => w.SendCommand c.command c.env
  | some d => w.SendCommandWithCustomTimeout c.command d c.env

/-- A world in which nothing is pending: the guard passes, the stdin pipe is
open, no reader of an earlier call is inside `Scan()`, and the scanner holds
no unread byte and no error. -/
def World.quiet (w : World) : Bool :=
  !processNotRunning w.manager && !w.manager.stdin.closed &&
    w.manager.blockedReaders.isEmpty && decide (w.stdout = { unread := [], err := none })

/-- The results of a sequence of calls, in lock-acquisition order, and the
world afterwards. -/
def World.run (w : World) : List Call → List SendResult × World
  | [] => ([], w)
  | c :: cs =>
    let first := w.call c
    let others := World.run first.2 cs
    (first.1 :: others.1, others.2)

/-- A worker that answers strictly in request order, one line per command,
answers this call in time: the write succeeds and the line `worker command`
appears on stdout before the timer fires. -/
def answeredInTime (worker : Str → Str) (c : Call) : Bool :=
  decide (c.env.write = .ok) &&
  match c.env.output with
  | some (t, .data bytes) =>
    decide (t < c.deadline) && decide (bytes = worker c.command ++ [newline])
  | _ => false

/-- What a caller gets from the response line the worker produced for its own
command: the line itself (without its line end), or the worker error made
from it. -/
def ownReply (worker : Str → Str) (command : Str) : Str × Option EngineError :=
  match readerGoroutine (.token (dropCR (worker command))) with
  | .response res => (res, none)
  | .error e => ([], some e)

/-- Whether the caller received exactly what the response line for its own
command gives. -/
def attributed (worker : Str → Str) (c : Call) (r : SendResult) : Bool :=
  decide ((r.response, r.err) = ownReply worker c.command)

/-- An environment in which `QUIT` is written, the worker is still running
after the grace period, and `Process.Kill()` succeeds. -/
def forcedClose : CloseEnv := { write := .ok, watcher := none, kill := none }

/-- The manager after a `Close` that had to kill the worker, once the
exit-watcher has recorded the termination by signal 9. -/
def killedManager : CppEngineManager :=
  run NewCppEngineManager [.close forcedClose, .waitReturns { status := .signal 9 }]

/-- The manager of a worker that was killed from outside (signal 9), once the
exit-watcher has recorded it; the `cmd.Wait()` that recorded it has closed the
stdin pipe. -/
def crashedManager : CppEngineManager :=
  run NewCppEngineManager [.waitReturns { status := .signal 9 }]

/-- An environment in which the write succeeds and the worker does not answer
while the caller waits. -/
def silentWorker : SendEnv := { write := .ok, read := { arrival := none, timerFirst := false } }

/-- An environment in which the write succeeds and the reader obtains `line`
after one millisecond. -/
def promptWorker (line : Str) : SendEnv :=
  { write := .ok, read := { arrival := some (1000000, .token line), timerFirst := false } }

/-- The two send methods differ only in the timeout: `SendCommand` is
`SendCommandWithCustomTimeout` at five seconds. -/
theorem sendCommand_eq_customTimeout (m : CppEngineManager) (command : Str) (env : SendEnv) :
    SendCommand m command env = SendCommandWithCustomTimeout m command (5 * Second) env := by
  rfl

/-- A manager that fails the liveness guard gets the not-running error and
nothing else happens. -/
theorem sendCommandWithCustomTimeout_notRunning (m : CppEngineManager) (command : Str)
    (timeout : Duration) (env : SendEnv) (h : processNotRunning m = true) :
    SendCommandWithCustomTimeout m command timeout env =
      { response := [], err := some .notRunning, manager := m, actions := [] } := by
  simp [SendCommandWithCustomTimeout, h]

/-- When the write fails, the call stops there. -/
theorem sendCommandWithCustomTimeout_writeFailed (m : CppEngineManager) (command : Str)
    (timeout : Duration) (env : SendEnv) (e : Str)
    (hAlive : processNotRunning m = false)
    (hWrite : (Fprintln m.stdin command env.write).2 = some e) :
    SendCommandWithCustomTimeout m command timeout env =
      { response := [], err := some (.sendFailed e)
        manager := { m with stdin := (Fprintln m.stdin command env.write).1 }
        actions := [.write (command ++ [newline])] } := by
  unfold SendCommandWithCustomTimeout
  rw [if_neg (by simp [hAlive])]
  rcases hF : Fprintln m.stdin command env.write with ⟨s1, w⟩
  rw [hF] at hWrite
  simp only at hWrite
  subst hWrite
  rfl

/-- When the write succeeds, the outcome is decided by the `select`. -/
theorem sendCommandWithCustomTimeout_written (m : CppEngineManager) (command : Str)
    (timeout : Duration) (env : SendEnv)
    (hAlive : processNotRunning m = false)
    (hWrite : (Fprintln m.stdin command env.write).2 = none) :
    SendCommandWithCustomTimeout m command timeout env =
      (let m1 : CppEngineManager := { m with stdin := (Fprintln m.stdin command env.write).1 }
       let acts : List Action := [.write (command ++ [newline]), .spawnReader]
       match selectCase timeout env.read with
       | .fromReader (.response res) =>
         { response := res, err := none, manager := m1, actions := acts }
       | .fromReader (.error err) =>
         { response := [], err := some err, manager := m1, actions := acts }
       | .timerFired inScan =>
         { response := [], err := some (.timeout command)
           manager :=
             if inScan then { m1 with blockedReaders := m1.blockedReaders ++ [command] }
             else m1
           actions := acts }) := by
  unfold SendCommandWithCustomTimeout
  rw [if_neg (by simp [hAlive])]
  rcases hF : Fprintln m.stdin command env.write with ⟨s1, w⟩
  rw [hF] at hWrite
  simp only at hWrite
  subst hWrite
  rfl

/-- A successful `Fprintln` appended exactly the operand and one newline. -/
theorem fprintln_ok (w : Stdin) (s : Str) (o : WriteOutcome)
    (h : (Fprintln w s o).2 = none) :
    (Fprintln w s o).1 = { w with written := w.written ++ (s ++ [newline]) } := by
  unfold Fprintln at h ⊢
  by_cases hc : w.closed = true
  · simp [hc] at h
  · cases o with
    | ok => simp [hc]
    | fail n err => simp [hc] at h

/-- What the reader goroutine sends on the response channel is the scanned
line itself, and that line does not start with the error marker. -/
theorem readerGoroutine_response (scan : ScanOutcome) (res : Str)
    (h : readerGoroutine scan = .response res) :
    scan = .token res ∧ HasPrefix res "ERROR:".toList = false := by
  unfold readerGoroutine at h
  cases scan with
  | token text =>
    replace h : (if HasPrefix text "ERROR:".toList = true then
        ReaderSend.error (.engineError (TrimPrefix text "ERROR: ".toList))
        else ReaderSend.response text) = ReaderSend.response res := h
    by_cases hp : HasPrefix text "ERROR:".toList = true
    · rw [if_pos hp] at h
      cases h
    · rw [if_neg hp] at h
      cases h
      exact ⟨rfl, Bool.eq_false_iff.mpr hp⟩
  | stop err => cases h

/-- The `select` hands over a reader result only if the reader's `Scan()`
returned no later than the timer. -/
theorem selectCase_fromReader (timeout : Duration) (env : ReadEnv) (s : ReaderSend)
    (h : selectCase timeout env = .fromReader s) :
    ∃ t scan, env.arrival = some (t, scan) ∧ t ≤ timeout.toNat ∧ readerGoroutine scan = s := by
  unfold selectCase at h
  rcases hA : env.arrival with _ | ⟨t, scan⟩
  · simp [hA] at h
  · refine ⟨t, scan, rfl, ?_⟩
    simp only [hA] at h
    by_cases h1 : t < timeout.toNat
    · simp [h1] at h
      exact ⟨Nat.le_of_lt h1, h⟩
    · by_cases h2 : timeout.toNat < t
      · simp [h1, h2] at h
      · by_cases h3 : env.timerFirst = true
        · simp [h1, h2, h3] at h
        · simp [h1, h2, h3] at h
          exact ⟨Nat.le_of_not_lt h2, h⟩

/-- A send method adds a blocked reader only when it returns the timeout
error: on every other outcome the readers inside `m.stdout.Scan()` are the
ones that were there before the call. -/
theorem blockedReaders_unchanged_unless_timeout (m : CppEngineManager) (command : Str)
    (timeout : Duration) (env : SendEnv)
    (h : (SendCommandWithCustomTimeout m command timeout env).err ≠ some (.timeout command)) :
    (SendCommandWithCustomTimeout m command timeout env).manager.blockedReaders
      = m.blockedReaders := by
  by_cases hAlive : processNotRunning m = true
  · rw [sendCommandWithCustomTimeout_notRunning m command timeout env hAlive]
  · have hA : processNotRunning m = false := Bool.eq_false_iff.mpr hAlive
    rcases hW : (Fprintln m.stdin command env.write).2 with _ | e
    · have hEq := sendCommandWithCustomTimeout_written m command timeout env hA hW
      rw [hEq] at h ⊢
      dsimp only at h ⊢
      rcases hS : selectCase timeout env.read with s | inScan
      · cases s <;> rfl
      · rw [hS] at h
        exact absurd rfl h
    · rw [sendCommandWithCustomTimeout_writeFailed m command timeout env e hA hW]

/-- The liveness guard fires exactly for a manager that was never started and
for a worker whose recorded termination is a normal exit. -/
theorem processNotRunning_iff (m : CppEngineManager) :
    processNotRunning m = true ↔
      m.cmd = none ∨ ∃ code, m.cmd = some { ProcessState := some { status := .exit code } } := by
  obtain ⟨cmd, stdin, readers⟩ := m
  cases cmd with
  | none => simp [processNotRunning]
  | some c =>
    obtain ⟨ps⟩ := c
    cases ps with
    | none => simp [processNotRunning]
    | some s =>
      obtain ⟨st⟩ := s
      cases st with
      | exit code => simp [processNotRunning, ProcessState.Exited]
      | signal sig => simp [processNotRunning, ProcessState.Exited]

/-- On a manager that fails the liveness guard `Close` does nothing and
returns nil. -/
theorem close_notRunning (m : CppEngineManager) (env : CloseEnv)
    (h : processNotRunning m = true) :
    Close m env = { err := none, manager := m, actions := [] } := by
  unfold Close
  cases hc : m.cmd with
  | none => rfl
  | some c => simp [h]

/-- A line that starts with the marker followed by a space is reported as a
worker error whose payload is the rest of the line. -/
theorem readerGoroutine_marker_with_space (rest : Str) :
    readerGoroutine (.token ("ERROR: ".toList ++ rest)) = .error (.engineError rest) := by
  simp [readerGoroutine, HasPrefix, TrimPrefix, List.isPrefixOf]

/-- The reader goroutine never produces the not-running error. -/
theorem readerGoroutine_ne_notRunning (scan : ScanOutcome) :
    readerGoroutine scan ≠ .error .notRunning := by
  unfold readerGoroutine
  cases scan with
  | token text =>
    dsimp only
    split <;> intro h <;> cases h
  | stop err =>
    intro h
    cases h

/-- A send method returns the not-running error exactly when the liveness
guard fires. -/
theorem notRunning_iff_guard (m : CppEngineManager) (command : Str) (timeout : Duration)
    (env : SendEnv) :
    (SendCommandWithCustomTimeout m command timeout env).err = some .notRunning ↔
      processNotRunning m = true := by
  constructor
  · intro h
    by_contra hAlive
    have hA : processNotRunning m = false := Bool.eq_false_iff.mpr hAlive
    rcases hW : (Fprintln m.stdin command env.write).2 with _ | e
    · rw [sendCommandWithCustomTimeout_written m command timeout env hA hW] at h
      dsimp only at h
      rcases hS : selectCase timeout env.read with s | inScan
      · obtain ⟨t, scan, _, _, hRead⟩ := selectCase_fromReader timeout env.read s hS
        rw [hS] at h
        cases s with
        | response res => cases h
        | error err =>
          simp only [Option.some.injEq] at h
          subst h
          exact readerGoroutine_ne_notRunning scan hRead
      · rw [hS] at h
        cases h
    · rw [sendCommandWithCustomTimeout_writeFailed m command timeout env e hA hW] at h
      cases h
  · intro h
    rw [sendCommandWithCustomTimeout_notRunning m command timeout env h]

/-- A send method on a manager that passes the guard always calls `Write`
with the command line first. -/
theorem write_attempted_when_guard_passes (m : CppEngineManager) (command : Str)
    (timeout : Duration) (env : SendEnv) (hA : processNotRunning m = false) :
    (SendCommandWithCustomTimeout m command timeout env).actions.head?
      = some (.write (command ++ [newline])) := by
  rcases hW : (Fprintln m.stdin command env.write).2 with _ | e
  · rw [sendCommandWithCustomTimeout_written m command timeout env hA hW]
    dsimp only
    split <;> rfl
  · rw [sendCommandWithCustomTimeout_writeFailed m command timeout env e hA hW]
    rfl

/-! ## The claims -/

/-- C1 (the code at the failing input): a worker that was terminated by a
signal, and whose termination the exit-watcher has recorded, passes the
liveness guard of both send methods, because `ProcessState.Exited()` is false
for it.  This holds after a `Close` that killed the worker and for a worker
killed from outside alike.  The stdin pipe is closed by then, so every command
is handed to `Write` on the closed pipe, no byte is delivered, and the caller
gets the send-failed error instead of the not-running error. -/
theorem C1_signalled_worker_passes_the_guard :
    killedManager.cmd = some { ProcessState := some { status := .signal 9 } } ∧
    crashedManager.cmd = some { ProcessState := some { status := .signal 9 } } ∧
    processNotRunning killedManager = false ∧
    processNotRunning crashedManager = false ∧
    killedManager.stdin.closed = true ∧
    crashedManager.stdin.closed = true ∧
    (∀ command env,
      (SendCommand killedManager command env).err = some (.sendFailed errClosed) ∧
      (SendCommand killedManager command env).actions = [.write (command ++ [newline])] ∧
      (SendCommand killedManager command env).manager = killedManager) ∧
    (∀ command timeout env,
      (SendCommandWithCustomTimeout killedManager command timeout env).err
        = some (.sendFailed errClosed) ∧
      (SendCommandWithCustomTimeout killedManager command timeout env).actions
        = [.write (command ++ [newline])] ∧
      (SendCommandWithCustomTimeout killedManager command timeout env).manager
        = killedManager) ∧
    (∀ command env,
      (SendCommand crashedManager command env).err = some (.sendFailed errClosed) ∧
      (SendCommand crashedManager command env).actions = [.write (command ++ [newline])] ∧
      (SendCommand crashedManager command env).manager = crashedManager) ∧
    (∀ command timeout env,
      (SendCommandWithCustomTimeout crashedManager command timeout env).err
        = some (.sendFailed errClosed) ∧
      (SendCommandWithCustomTimeout crashedManager command timeout env).actions
        = [.write (command ++ [newline])] ∧
      (SendCommandWithCustomTimeout crashedManager command timeout env).manager
        = crashedManager) ∧
    (EngineError.sendFailed errClosed).Error
      = "failed to send command to C++ engine: write |1: file already closed".toList := by
  have key : ∀ m : CppEngineManager, processNotRunning m = false → m.stdin.closed = true →
      ∀ command timeout env,
        (SendCommandWithCustomTimeout m command timeout env).err
          = some (.sendFailed errClosed) ∧
        (SendCommandWithCustomTimeout m command timeout env).actions
          = [.write (command ++ [newline])] ∧
        (SendCommandWithCustomTimeout m command timeout env).manager = m := by
    intro m hA hC command timeout env
    have hF : Fprintln m.stdin command env.write = (m.stdin, some errClosed) := by
      simp [Fprintln, hC]
    rw [sendCommandWithCustomTimeout_writeFailed m command timeout env errClosed hA
      (by rw [hF])]
    refine ⟨rfl, rfl, ?_⟩
    rw [hF]
  have hk : processNotRunning killedManager = false := by decide
  have hc : processNotRunning crashedManager = false := by decide
  have hkc : killedManager.stdin.closed = true := by decide
  have hcc : crashedManager.stdin.closed = true := by decide
  refine ⟨by decide, by decide, hk, hc, hkc, hcc, ?_, key _ hk hkc, ?_, key _ hc hcc,
    by decide⟩
  · intro command env
    rw [sendCommand_eq_customTimeout]
    exact key _ hk hkc command (5 * Second) env
  · intro command env
    rw [sendCommand_eq_customTimeout]
    exact key _ hc hcc command (5 * Second) env

/-- C2 (the code at the failing input): the reader tests for `ERROR:` but
strips `ERROR: ` (with a space).  A line that starts with the marker is
reported as a worker error; the marker is stripped when a space follows it,
and otherwise the payload is the whole line, marker included. -/
theorem C2_marker_without_space_is_not_stripped :
    (SendCommand NewCppEngineManager "MAKE_MOVE f e2e5".toList
        (promptWorker "ERROR:illegal move".toList)).err
      = some (.engineError "ERROR:illegal move".toList) ∧
    (SendCommandWithCustomTimeout NewCppEngineManager "MAKE_MOVE f e2e5".toList (5 * Second)
        (promptWorker "ERROR:illegal move".toList)).err
      = some (.engineError "ERROR:illegal move".toList) ∧
    (SendCommand NewCppEngineManager "MAKE_MOVE f e2e5".toList
        (promptWorker "ERROR:".toList)).err
      = some (.engineError "ERROR:".toList) ∧
    (SendCommand NewCppEngineManager "MAKE_MOVE f e2e5".toList
        (promptWorker "ERROR: illegal move".toList)).err
      = some (.engineError "illegal move".toList) ∧
    (∀ (c : Char) (msg : Str),
      readerGoroutine (.token ("ERROR:".toList ++ c :: msg))
        = .error (.engineError
            (if c = Char.ofNat 32 then msg else "ERROR:".toList ++ c :: msg))) := by
  refine ⟨by decide, by decide, by decide, by decide, ?_⟩
  intro c msg
  by_cases hc : c = Char.ofNat 32
  · subst hc
    simp [readerGoroutine, HasPrefix, TrimPrefix, List.isPrefixOf]
  · have hc2 : ¬ (Char.ofNat 32 = c) := fun h => hc h.symm
    simp [readerGoroutine, HasPrefix, TrimPrefix, List.isPrefixOf, hc, hc2]

/-- C4 (the code at the failing input): a call that returns the timeout error
leaves its reader goroutine inside `m.stdout.Scan()`; the next call passes the
guard, writes its command line and starts a second reader while the first is
still waiting for the response to the earlier command.  The run of the two
calls breaks the discipline of one request in flight. -/
theorem C4_write_while_earlier_reader_is_blocked :
    (SendCommandWithCustomTimeout NewCppEngineManager "GET_ENGINE_MOVE f".toList
        (30 * Second) silentWorker).err = some (.timeout "GET_ENGINE_MOVE f".toList) ∧
    (SendCommandWithCustomTimeout NewCppEngineManager "GET_ENGINE_MOVE f".toList
        (30 * Second) silentWorker).manager.blockedReaders = ["GET_ENGINE_MOVE f".toList] ∧
    (SendCommandWithCustomTimeout
        (SendCommandWithCustomTimeout NewCppEngineManager "GET_ENGINE_MOVE f".toList
          (30 * Second) silentWorker).manager
        "NEW_GAME DEFAULT".toList (5 * Second) silentWorker).actions
      = [.write "NEW_GAME DEFAULT\n".toList, .spawnReader] ∧
    (SendCommandWithCustomTimeout
        (SendCommandWithCustomTimeout NewCppEngineManager "GET_ENGINE_MOVE f".toList
          (30 * Second) silentWorker).manager
        "NEW_GAME DEFAULT".toList (5 * Second) silentWorker).manager.stdin.written
      = "GET_ENGINE_MOVE f\nNEW_GAME DEFAULT\n".toList ∧
    (SendCommandWithCustomTimeout
        (SendCommandWithCustomTimeout NewCppEngineManager "GET_ENGINE_MOVE f".toList
          (30 * Second) silentWorker).manager
        "NEW_GAME DEFAULT".toList (5 * Second) silentWorker).manager.blockedReaders
      = ["GET_ENGINE_MOVE f".toList, "NEW_GAME DEFAULT".toList] ∧
    oneInFlight NewCppEngineManager
        [.sendCommandWithCustomTimeout "GET_ENGINE_MOVE f".toList (30 * Second) silentWorker,
         .sendCommandWithCustomTimeout "NEW_GAME DEFAULT".toList (5 * Second) silentWorker]
      = false ∧
    (∀ (command command2 : Str) (timeout timeout2 : Duration) (read2 : ReadEnv),
      (SendCommandWithCustomTimeout NewCppEngineManager command timeout
          silentWorker).manager.blockedReaders = [command] ∧
      (SendCommandWithCustomTimeout
          (SendCommandWithCustomTimeout NewCppEngineManager command timeout
            silentWorker).manager
          command2 timeout2 { write := .ok, read := read2 }).actions
        = [.write (command2 ++ [newline]), .spawnReader]) := by
  refine ⟨by decide, by decide, by decide, by decide, by decide, by decide, ?_⟩
  intro command command2 timeout timeout2 read2
  have h1 : SendCommandWithCustomTimeout NewCppEngineManager command timeout silentWorker
      = { response := [], err := some (.timeout command)
          manager := { cmd := some { ProcessState := none }
                       stdin := { written := command ++ [newline], closed := false }
                       blockedReaders := [command] }
          actions := [.write (command ++ [newline]), .spawnReader] } := by
    simp [SendCommandWithCustomTimeout, NewCppEngineManager, silentWorker, processNotRunning,
      Fprintln, selectCase]
  rw [h1]
  refine ⟨rfl, ?_⟩
  have hA : processNotRunning
      { cmd := some { ProcessState := none }
        stdin := { written := command ++ [newline], closed := false }
        blockedReaders := [command] } = false := rfl
  rw [sendCommandWithCustomTimeout_written _ command2 timeout2
    { write := .ok, read := read2 } hA rfl]
  dsimp only
  split <;> rfl

/-- C5 (the code at the failing input): a first `Close` that has to kill the
worker returns no error; a second `Close` passes the guard again, because the
process state is either not recorded yet or records a termination by signal.
It hands `QUIT` to `Write` on the closed pipe and calls `Process.Kill()` a
second time, and it returns the kill-failed error when that call reports that
the process has already finished. -/
theorem C5_second_close_kills_again :
    (Close NewCppEngineManager forcedClose).err = none ∧
    (Close NewCppEngineManager forcedClose).actions
      = [.write "QUIT\n".toList, .sleep, .kill, .closeStdin] ∧
    (Close (Close NewCppEngineManager forcedClose).manager forcedClose).actions
      = [.write "QUIT\n".toList, .kill, .closeStdin] ∧
    (Close (Close NewCppEngineManager forcedClose).manager forcedClose).manager.stdin.written
      = "QUIT\n".toList ∧
    (Close killedManager
        { write := .ok, watcher := none, kill := some "os: process already finished".toList }).actions
      = [.write "QUIT\n".toList, .kill] ∧
    (Close killedManager
        { write := .ok, watcher := none, kill := some "os: process already finished".toList }).err
      = some (.killFailed "os: process already finished".toList) ∧
    (∀ env : CloseEnv, Action.kill ∈ (Close killedManager env).actions) ∧
    (∀ (write : WriteOutcome) (watcher : Option ProcessState) (cause : Str),
      (Close killedManager { write := write, watcher := watcher, kill := some cause }).err
        = some (.killFailed cause)) := by
  have hk : killedManager =
      { cmd := some { ProcessState := some { status := .signal 9 } }
        stdin := { written := "QUIT\n".toList, closed := true }
        blockedReaders := [] } := by decide
  refine ⟨by decide, by decide, by decide, by decide, by decide, by decide, ?_, ?_⟩
  · intro env
    rw [hk]
    obtain ⟨w, wt, k⟩ := env
    cases k <;>
      simp [Close, processNotRunning, ProcessState.Exited, Fprintln, observe, didNotExit]
  · intro w wt cause
    rw [hk]
    simp [Close, processNotRunning, ProcessState.Exited, Fprintln, observe, didNotExit]

/-- The outcome of `Close` on a manager that passes the liveness guard, in
terms of the result of the write of `QUIT`. -/
theorem close_outcome (m : CppEngineManager) (env : CloseEnv)
    (hAlive : processNotRunning m = false) :
    ((Close m env).err ≠ none ↔ (Action.kill ∈ (Close m env).actions ∧ env.kill ≠ none)) ∧
    (∀ e, (Close m env).err = some e → ∃ cause, env.kill = some cause ∧ e = .killFailed cause) ∧
    (∀ e, (Fprintln m.stdin "QUIT".toList env.write).2 = some e →
      Action.sleep ∉ (Close m env).actions ∧
      ((∀ code, env.watcher ≠ some { status := .exit code }) →
        Action.kill ∈ (Close m env).actions) ∧
      (env.kill = none → (Close m env).err = none)) := by
  obtain ⟨cmd, stdin, readers⟩ := m
  obtain ⟨write, watcher, kill⟩ := env
  cases cmd with
  | none => simp [processNotRunning] at hAlive
  | some c =>
    obtain ⟨ps⟩ := c
    have hps : didNotExit ps = true := by
      cases ps with
      | none => rfl
      | some s => simpa [processNotRunning, didNotExit] using hAlive
    rcases hF : Fprintln stdin "QUIT".toList write with ⟨stdin1, werr⟩
    have hObs : ∀ w : Option ProcessState, (∀ code, w ≠ some { status := .exit code }) →
        didNotExit (observe { ProcessState := ps } w).ProcessState = true := by
      intro w hw
      cases ps with
      | some s => simpa [observe] using hps
      | none =>
        cases w with
        | none => rfl
        | some s =>
          obtain ⟨st⟩ := s
          cases st with
          | exit code => exact absurd rfl (hw code)
          | signal sig => rfl
    have hF2 : Fprintln stdin ['Q', 'U', 'I', 'T'] write = (stdin1, werr) := hF
    by_cases hD : didNotExit (observe { ProcessState := ps } watcher).ProcessState = true
    · cases kill with
      | none =>
        cases werr <;> simp [Close, hAlive, hF2, hD]
      | some cause =>
        cases werr <;> simp [Close, hAlive, hF2, hD]
    · cases werr with
      | none => simp [Close, hAlive, hF2, hD]
      | some e =>
        simp [Close, hAlive, hF2, hD]
        by_contra hne
        push_neg at hne
        exact hD (hObs watcher hne)

/-- C8 (counterexample): the write of `QUIT` fails and, between the guard and
the second read of `cmd.ProcessState`, the exit-watcher records a normal exit
of the worker.  `Close` then goes from the failed write to the re-check, finds
the worker exited, and returns nil without any kill attempt. -/
theorem C8_failed_write_without_kill_attempt :
    processNotRunning NewCppEngineManager = false ∧
    (Fprintln NewCppEngineManager.stdin "QUIT".toList
        (.fail 0 "write |1: broken pipe".toList)).2
      = some "write |1: broken pipe".toList ∧
    (Close NewCppEngineManager
        { write := .fail 0 "write |1: broken pipe".toList
          watcher := some { status := .exit 0 }, kill := none }).actions
      = [.write "QUIT\n".toList, .closeStdin] ∧
    Action.kill ∉ (Close NewCppEngineManager
        { write := .fail 0 "write |1: broken pipe".toList
          watcher := some { status := .exit 0 }, kill := none }).actions ∧
    (Close NewCppEngineManager
        { write := .fail 0 "write |1: broken pipe".toList
          watcher := some { status := .exit 0 }, kill := none }).err = none := by
  decide

/-- C8 (amended): for a manager that passes the liveness guard, `Close`
returns an error exactly when `Process.Kill()` was called and failed, and the
error is the kill-failed error.  When the write of `QUIT` fails (the pipe is
closed, or the write reports an error) there is no grace period: the next step
is the re-check of the process state, where the kill is attempted unless the
exit-watcher has recorded a normal exit since the guard, and `Close` returns
no error when the kill succeeds.  When a normal exit has been recorded since
the guard, no kill is attempted and `Close` returns no error. -/
theorem C8_close_fails_iff_kill_failed (m : CppEngineManager) (env : CloseEnv)
    (hAlive : processNotRunning m = false) :
    ((Close m env).err ≠ none ↔ (Action.kill ∈ (Close m env).actions ∧ env.kill ≠ none)) ∧
    (∀ e, (Close m env).err = some e → ∃ cause, env.kill = some cause ∧ e = .killFailed cause) ∧
    ((m.stdin.closed = true ∨ ∃ n e, env.write = .fail n e) →
      Action.sleep ∉ (Close m env).actions ∧
      ((∀ code, env.watcher ≠ some { status := .exit code }) →
        Action.kill ∈ (Close m env).actions) ∧
      (env.kill = none → (Close m env).err = none)) ∧
    (∀ cmd code, m.cmd = some cmd → cmd.ProcessState = none →
      env.watcher = some { status := .exit code } →
      Action.kill ∉ (Close m env).actions ∧ (Close m env).err = none) := by
  obtain ⟨h1, h2, h3⟩ := close_outcome m env hAlive
  refine ⟨h1, h2, ?_, ?_⟩
  · intro hFail
    have hErr : ∃ e, (Fprintln m.stdin "QUIT".toList env.write).2 = some e := by
      unfold Fprintln
      by_cases hc : m.stdin.closed = true
      · exact ⟨errClosed, by simp [hc]⟩
      · rcases hFail with h | ⟨n, e, h⟩
        · exact absurd h hc
        · exact ⟨e, by simp [hc, h]⟩
    obtain ⟨e, he⟩ := hErr
    exact h3 e he
  · intro cmd code hCmd hPs hW
    obtain ⟨mcmd, stdin, readers⟩ := m
    obtain ⟨write, watcher, kill⟩ := env
    simp only at hCmd hW
    subst hCmd hW
    obtain ⟨ps⟩ := cmd
    simp only at hPs
    subst hPs
    rcases hF : Fprintln stdin ['Q', 'U', 'I', 'T'] write with ⟨stdin1, werr⟩
    cases werr <;>
      simp [Close, processNotRunning, hF, observe, didNotExit, ProcessState.Exited]

/-- C8 (amended) at concrete inputs.  First: the write of `QUIT` fails, the
worker is still running, the kill succeeds.  Second: the write of `QUIT`
succeeds and the worker's normal exit is recorded during the grace period. -/
theorem C8_close_fails_iff_kill_failed_witness :
    (Action.sleep ∉ (Close NewCppEngineManager
        { write := .fail 0 "broken pipe".toList, watcher := none, kill := none }).actions ∧
     Action.kill ∈ (Close NewCppEngineManager
        { write := .fail 0 "broken pipe".toList, watcher := none, kill := none }).actions ∧
     (Close NewCppEngineManager
        { write := .fail 0 "broken pipe".toList, watcher := none, kill := none }).err = none) ∧
    (Action.kill ∉ (Close NewCppEngineManager
        { write := .ok, watcher := some { status := .exit 0 }, kill := none }).actions ∧
     (Close NewCppEngineManager
        { write := .ok, watcher := some { status := .exit 0 }, kill := none }).err = none) :=
  have h := (C8_close_fails_iff_kill_failed NewCppEngineManager
    { write := .fail 0 "broken pipe".toList, watcher := none, kill := none }
    (by decide)).2.2.1 (Or.inr ⟨0, "broken pipe".toList, rfl⟩)
  have hExit := (C8_close_fails_iff_kill_failed NewCppEngineManager
    { write := .ok, watcher := some { status := .exit 0 }, kill := none }
    (by decide)).2.2.2 { ProcessState := none } 0 rfl rfl rfl
  ⟨⟨h.1, h.2.1 (by intro code hc; cases hc), h.2.2 rfl⟩, hExit⟩

/-- A send method that returns a nil error returns the line its own reader
scanned, and that line does not start with the error marker. -/
theorem sendCommandWithCustomTimeout_success (m : CppEngineManager) (command : Str)
    (timeout : Duration) (env : SendEnv)
    (hOk : (SendCommandWithCustomTimeout m command timeout env).err = none) :
    (∃ t, env.read.arrival =
        some (t, .token (SendCommandWithCustomTimeout m command timeout env).response)) ∧
    HasPrefix (SendCommandWithCustomTimeout m command timeout env).response
      "ERROR:".toList = false := by
  by_cases hAlive : processNotRunning m = true
  · rw [sendCommandWithCustomTimeout_notRunning m command timeout env hAlive] at hOk
    cases hOk
  · have hA : processNotRunning m = false := Bool.eq_false_iff.mpr hAlive
    rcases hW : (Fprintln m.stdin command env.write).2 with _ | e
    · have hEq := sendCommandWithCustomTimeout_written m command timeout env hA hW
      rw [hEq] at hOk ⊢
      dsimp only at hOk ⊢
      rcases hS : selectCase timeout env.read with s | inScan
      · cases s with
        | response res =>
          obtain ⟨t, scan, hArr, _, hRead⟩ := selectCase_fromReader timeout env.read _ hS
          obtain ⟨hScan, hPre⟩ := readerGoroutine_response scan res hRead
          subst hScan
          exact ⟨⟨t, hArr⟩, hPre⟩
        | error err =>
          rw [hS] at hOk
          cases hOk
      · rw [hS] at hOk
        cases hOk
    · rw [sendCommandWithCustomTimeout_writeFailed m command timeout env e hA hW] at hOk
      cases hOk

/-- A string has no newline exactly when the newline rune is not among its
runes. -/
theorem hasNewline_eq_false_iff (s : Str) : hasNewline s = false ↔ newline ∉ s := by
  unfold hasNewline
  rw [Bool.eq_false_iff]
  simp

/-- Concatenation has no newline when the two parts have none. -/
theorem hasNewline_append (s t : Str) (hs : hasNewline s = false) (ht : hasNewline t = false) :
    hasNewline (s ++ t) = false := by
  rw [hasNewline_eq_false_iff] at hs ht ⊢
  simp [hs, ht]

/-- A string without a newline, followed by one newline, is one line. -/
theorem count_newline_line (s : Str) (hs : hasNewline s = false) :
    (s ++ [newline]).count newline = 1 := by
  rw [hasNewline_eq_false_iff] at hs
  rw [List.count_append, List.count_eq_zero.mpr hs]
  simp

/-! ## The scanner -/

/-- The first line of a newline-free string followed by a newline is that
string. -/
theorem firstLine_append_newline (line rest : Str) (h : hasNewline line = false) :
    firstLine (line ++ newline :: rest) = line := by
  rw [hasNewline_eq_false_iff] at h
  unfold firstLine
  induction line with
  | nil => simp
  | cons c cs ih =>
    have hc : c ≠ newline := fun e => h (e ▸ List.mem_cons_self _ _)
    have hcs : newline ∉ cs := fun hm => h (List.mem_cons_of_mem _ hm)
    simp [hc, ih hcs]

/-- Stripping a trailing carriage return introduces no newline. -/
theorem hasNewline_dropCR (s : Str) (h : hasNewline s = false) :
    hasNewline (dropCR s) = false := by
  rw [hasNewline_eq_false_iff] at h ⊢
  unfold dropCR
  split
  · exact fun hm => h (List.mem_of_mem_dropLast hm)
  · exact h

/-- With no error recorded, `Scan()` returns a complete line that fits into
the buffer. -/
theorem scan_line (sc : Scanner) (line rest : Str) (hErr : sc.err = none)
    (hUnread : sc.unread = line ++ newline :: rest) (hLine : hasNewline line = false)
    (hFits : line.length < MaxScanTokenSize) :
    sc.Scan = some (.token (dropCR line), { unread := rest, err := none }) := by
  obtain ⟨unread, err⟩ := sc
  simp only at hErr hUnread
  subst hErr hUnread
  have hFirst := firstLine_append_newline line rest hLine
  unfold Scanner.Scan
  simp only [hFirst, List.length_append, List.length_cons]
  have h1 : line.length < line.length + (rest.length + 1) := by omega
  simp [h1, hFits]

/-- The `select` takes the reader's send when the reader's `Scan()` returns
before the timer fires. -/
theorem selectCase_early (timeout : Duration) (env : ReadEnv) (t : Nat) (o : ScanOutcome)
    (hArr : env.arrival = some (t, o)) (ht : t < timeout.toNat) :
    selectCase timeout env = .fromReader (readerGoroutine o) := by
  unfold selectCase
  rw [hArr]
  simp [ht]

/-- A successful write on an open pipe appends the operand and a newline. -/
theorem fprintln_open_ok (w : Stdin) (s : Str) (h : w.closed = false) :
    Fprintln w s .ok = ({ w with written := w.written ++ (s ++ [newline]) }, none) := by
  simp [Fprintln, h]

/-- A send method changes neither `m.cmd` nor the state of the stdin pipe
other than the bytes written. -/
theorem send_preserves (m : CppEngineManager) (command : Str) (timeout : Duration)
    (env : SendEnv) :
    (SendCommandWithCustomTimeout m command timeout env).manager.cmd = m.cmd ∧
    (SendCommandWithCustomTimeout m command timeout env).manager.stdin.closed
      = m.stdin.closed := by
  have hF : (Fprintln m.stdin command env.write).1.closed = m.stdin.closed := by
    unfold Fprintln
    split
    · rfl
    · split <;> rfl
  by_cases hAlive : processNotRunning m = true
  · rw [sendCommandWithCustomTimeout_notRunning m command timeout env hAlive]
    exact ⟨rfl, rfl⟩
  · have hA : processNotRunning m = false := Bool.eq_false_iff.mpr hAlive
    rcases hW : (Fprintln m.stdin command env.write).2 with _ | e
    · rw [sendCommandWithCustomTimeout_written m command timeout env hA hW]
      dsimp only
      split
      · exact ⟨rfl, hF⟩
      · exact ⟨rfl, hF⟩
      · split
        · exact ⟨rfl, hF⟩
        · exact ⟨rfl, hF⟩
    · rw [sendCommandWithCustomTimeout_writeFailed m command timeout env e hA hW]
      exact ⟨rfl, hF⟩

/-- The result of a send method whose write succeeds and whose reader's
`Scan()` returns before the timer fires. -/
theorem send_in_time (m : CppEngineManager) (command : Str) (timeout : Duration)
    (read : ReadEnv) (t : Nat) (o : ScanOutcome)
    (hAlive : processNotRunning m = false) (hOpen : m.stdin.closed = false)
    (hArr : read.arrival = some (t, o)) (ht : t < timeout.toNat) :
    SendCommandWithCustomTimeout m command timeout { write := .ok, read := read } =
      (match readerGoroutine o with
       | .response res =>
         { response := res, err := none
           manager := { m with stdin :=
             { m.stdin with written := m.stdin.written ++ (command ++ [newline]) } }
           actions := [.write (command ++ [newline]), .spawnReader] }
       | .error e =>
         { response := [], err := some e
           manager := { m with stdin :=
             { m.stdin with written := m.stdin.written ++ (command ++ [newline]) } }
           actions := [.write (command ++ [newline]), .spawnReader] }) := by
  have hF := fprintln_open_ok m.stdin command hOpen
  rw [sendCommandWithCustomTimeout_written m command timeout _ hAlive (by rw [hF])]
  dsimp only
  rw [selectCase_early timeout read t o hArr ht, hF]
  cases readerGoroutine o <;> rfl

/-- The method `SendCommand` on the world is `SendCommandWithCustomTimeout` on
the world at five seconds. -/
theorem world_sendCommand_eq (w : World) (command : Str) (env : WorkerEnv) :
    w.SendCommand command env = w.SendCommandWithCustomTimeout command (5 * Second) env := by
  rfl

/-- A call is `SendCommandWithCustomTimeout` at the timeout of the call. -/
theorem world_call_eq (w : World) (c : Call) :
    w.call c = w.SendCommandWithCustomTimeout c.command c.duration c.env := by
  unfold World.call Call.duration
  cases c.timeout <;> rfl

/-- The result of a send method on the world is the result of the method on
the manager, run with what the reader sees. -/
theorem world_send_fst (w : World) (command : Str) (timeout : Duration) (env : WorkerEnv) :
    (w.SendCommandWithCustomTimeout command timeout env).1 =
      SendCommandWithCustomTimeout w.manager command timeout
        { write := env.write
          read := { arrival := (w.readerSees env).map (fun x => (x.1, x.2.1))
                    timerFirst := env.timerFirst } } := by
  rfl

/-- The world after a send method whose write succeeds and whose reader's
`Scan()` returns before the timer fires: the manager has the command line on
stdin, and the scanner has advanced. -/
theorem world_in_time (w : World) (command : Str) (timeout : Duration) (env : WorkerEnv)
    (t : Nat) (o : ScanOutcome) (sc : Scanner)
    (hAlive : processNotRunning w.manager = false) (hOpen : w.manager.stdin.closed = false)
    (hWrite : env.write = .ok) (hSees : w.readerSees env = some (t, o, sc))
    (ht : t < timeout.toNat) :
    (w.SendCommandWithCustomTimeout command timeout env).1 =
      (match readerGoroutine o with
       | .response res =>
         { response := res, err := none
           manager := { w.manager with stdin :=
             { w.manager.stdin with
               written := w.manager.stdin.written ++ (command ++ [newline]) } }
           actions := [.write (command ++ [newline]), .spawnReader] }
       | .error e =>
         { response := [], err := some e
           manager := { w.manager with stdin :=
             { w.manager.stdin with
               written := w.manager.stdin.written ++ (command ++ [newline]) } }
           actions := [.write (command ++ [newline]), .spawnReader] }) ∧
    (w.SendCommandWithCustomTimeout command timeout env).2 =
      { manager := { w.manager with stdin :=
          { w.manager.stdin with
            written := w.manager.stdin.written ++ (command ++ [newline]) } }
        stdout := sc } := by
  have hR := send_in_time w.manager command timeout
    { arrival := some (t, o), timerFirst := env.timerFirst } t o hAlive hOpen rfl ht
  have h1 : (w.SendCommandWithCustomTimeout command timeout env).1 = _ :=
    world_send_fst w command timeout env
  rw [hSees, hWrite] at h1
  simp only [Option.map] at h1
  rw [hR] at h1
  refine ⟨h1, ?_⟩
  unfold World.SendCommandWithCustomTimeout World.roundTrip
  simp only [hSees, hWrite, Option.map]
  rw [hR]
  have hle : t ≤ timeout.toNat := Nat.le_of_lt ht
  cases readerGoroutine o <;> simp [hle]

/-- A successful write on an open pipe by a send method that passes the guard
appends exactly the command line to the input stream. -/
theorem send_written (m : CppEngineManager) (command : Str) (timeout : Duration)
    (env : SendEnv) (hAlive : processNotRunning m = false) (hOpen : m.stdin.closed = false)
    (hWrite : env.write = .ok) :
    (SendCommandWithCustomTimeout m command timeout env).manager.stdin.written
      = m.stdin.written ++ (command ++ [newline]) := by
  have hF : Fprintln m.stdin command env.write
      = ({ m.stdin with written := m.stdin.written ++ (command ++ [newline]) }, none) := by
    rw [hWrite]
    exact fprintln_open_ok m.stdin command hOpen
  rw [sendCommandWithCustomTimeout_written m command timeout env hAlive (by rw [hF])]
  dsimp only
  rw [hF]
  split
  · rfl
  · rfl
  · split <;> rfl

/-- An empty scanner without a recorded error has to wait. -/
theorem scan_empty : ({ unread := [], err := none } : Scanner).Scan = none := by
  decide

/-- What the reader sees in a quiet world when the worker's answer, one line
that fits into the buffer, appears on stdout. -/
theorem readerSees_answer (w : World) (env : WorkerEnv) (t : Nat) (answer : Str)
    (hIdle : w.manager.blockedReaders = [])
    (hClean : w.stdout = { unread := [], err := none })
    (hOut : env.output = some (t, .data (answer ++ [newline])))
    (hLine : hasNewline answer = false) (hFits : answer.length < MaxScanTokenSize) :
    w.readerSees env = some (t, .token (dropCR answer), { unread := [], err := none }) := by
  unfold World.readerSees
  rw [hIdle, hClean, scan_empty, hOut]
  have hScan := scan_line { unread := [] ++ (answer ++ [newline]), err := none } answer []
    rfl (by simp) hLine hFits
  simp only [List.isEmpty_nil, Bool.not_true, Bool.false_eq_true, ↓reduceIte, Scanner.receive]
  rw [hScan]

/-- One call in a quiet world, answered in time by a worker that answers in
request order: the caller receives what the response line for its own
command gives, the command line is appended to stdin, and the world is quiet
again. -/
theorem call_answered (worker : Str → Str) (w : World) (c : Call)
    (hQuiet : w.quiet = true) (hAns : answeredInTime worker c = true)
    (hLine : hasNewline (worker c.command) = false)
    (hFits : (worker c.command).length < MaxScanTokenSize) :
    attributed worker c (w.call c).1 = true ∧
    (w.call c).2.quiet = true ∧
    (w.call c).2.manager.stdin.written
      = w.manager.stdin.written ++ (c.command ++ [newline]) := by
  unfold World.quiet at hQuiet
  simp only [Bool.and_eq_true, Bool.not_eq_true', decide_eq_true_eq,
    List.isEmpty_iff] at hQuiet
  obtain ⟨⟨⟨hAlive, hOpen⟩, hIdle⟩, hClean⟩ := hQuiet
  unfold answeredInTime at hAns
  simp only [Bool.and_eq_true, decide_eq_true_eq] at hAns
  obtain ⟨hWrite, hOut⟩ := hAns
  rcases hO : c.env.output with _ | ⟨t, ww⟩
  · rw [hO] at hOut
    cases hOut
  · rw [hO] at hOut
    cases ww with
    | close e => cases hOut
    | data bytes =>
      simp only [Bool.and_eq_true, decide_eq_true_eq] at hOut
      obtain ⟨ht, hBytes⟩ := hOut
      subst hBytes
      have hSees := readerSees_answer w c.env t (worker c.command) hIdle hClean hO hLine hFits
      obtain ⟨h1, h2⟩ := world_in_time w c.command c.duration c.env t _ _ hAlive hOpen
        hWrite hSees ht
      rw [world_call_eq, h2]
      refine ⟨?_, ?_, rfl⟩
      · unfold attributed ownReply
        rw [h1]
        cases readerGoroutine (.token (dropCR (worker c.command))) <;> simp
      · unfold World.quiet
        simp only [Bool.and_eq_true, Bool.not_eq_true', decide_eq_true_eq, List.isEmpty_iff]
        exact ⟨⟨⟨hAlive, hOpen⟩, hIdle⟩, trivial⟩

/-- The attribution half of the ordering property, for runs without a
timeout: when every call of a run is answered in time by a worker that
answers in request order, every caller receives what the response line for
its own command gives, and the world is quiet after the run. -/
theorem attribution_without_timeout (worker : Str → Str) (calls : List Call) (w : World)
    (hQuiet : w.quiet = true)
    (hCalls : ∀ c ∈ calls, answeredInTime worker c = true ∧
      hasNewline (worker c.command) = false ∧
      (worker c.command).length < MaxScanTokenSize) :
    List.Forall₂ (fun c r => attributed worker c r = true) calls (w.run calls).1 ∧
    (w.run calls).2.quiet = true := by
  induction calls generalizing w with
  | nil => exact ⟨List.Forall₂.nil, hQuiet⟩
  | cons c cs ih =>
    obtain ⟨hAns, hLine, hFits⟩ := hCalls c (List.mem_cons_self _ _)
    obtain ⟨hAttr, hQ, _⟩ := call_answered worker w c hQuiet hAns hLine hFits
    obtain ⟨hRest, hQ2⟩ := ih (w.call c).2 hQ
      (fun c2 hc2 => hCalls c2 (List.mem_cons_of_mem _ hc2))
    exact ⟨List.Forall₂.cons hAttr hRest, hQ2⟩

/-- The order half of the ordering property: when the guard passes, the stdin
pipe is open and every write of a run succeeds, the worker's input stream is
the command lines of the run in the order of the calls, whatever the outcome
of each call. -/
theorem written_in_lock_order (calls : List Call) (w : World)
    (hAlive : processNotRunning w.manager = false) (hOpen : w.manager.stdin.closed = false)
    (hWrites : ∀ c ∈ calls, c.env.write = .ok) :
    (w.run calls).2.manager.stdin.written
      = w.manager.stdin.written ++ (calls.map (fun c => c.command ++ [newline])).flatten := by
  induction calls generalizing w with
  | nil => simp [World.run]
  | cons c cs ih =>
    have hW := hWrites c (List.mem_cons_self _ _)
    have hM : (w.call c).2.manager = (w.call c).1.manager := by
      rw [world_call_eq]
      rfl
    have h1 : (w.call c).1 = SendCommandWithCustomTimeout w.manager c.command c.duration
        { write := c.env.write
          read := { arrival := (w.readerSees c.env).map (fun x => (x.1, x.2.1))
                    timerFirst := c.env.timerFirst } } := by
      rw [world_call_eq]
      rfl
    have hP := send_preserves w.manager c.command c.duration
        { write := c.env.write
          read := { arrival := (w.readerSees c.env).map (fun x => (x.1, x.2.1))
                    timerFirst := c.env.timerFirst } }
    have hF := fprintln_open_ok w.manager.stdin c.command hOpen
    have hWr := (send_written w.manager c.command c.duration
        { write := c.env.write
          read := { arrival := (w.readerSees c.env).map (fun x => (x.1, x.2.1))
                    timerFirst := c.env.timerFirst } } hAlive hOpen hW)
    rw [← h1] at hP hWr
    have hA2 : processNotRunning (w.call c).2.manager = false := by
      rw [hM]
      unfold processNotRunning at hAlive ⊢
      rw [hP.1]
      exact hAlive
    have hO2 : (w.call c).2.manager.stdin.closed = false := by
      rw [hM, hP.2]
      exact hOpen
    have := ih (w.call c).2 hA2 hO2 (fun c2 hc2 => hWrites c2 (List.mem_cons_of_mem _ hc2))
    show (World.run (w.call c).2 cs).2.manager.stdin.written = _
    rw [this, hM, hWr]
    simp

/-! ## A response line longer than the scanner's buffer -/

/-- Stripping a leading string introduces no newline. -/
theorem hasNewline_trimPrefix (s p : Str) (hs : hasNewline s = false) :
    hasNewline (TrimPrefix s p) = false := by
  rw [hasNewline_eq_false_iff] at hs ⊢
  unfold TrimPrefix
  split
  · exact fun h => hs (List.mem_of_mem_drop h)
  · exact hs

/-- The parts produced by splitting at the runes that satisfy `p` contain no
such rune. -/
theorem splitOnP_parts (p : Char → Bool) (s : Str) :
    ∀ part ∈ s.splitOnP p, ∀ c ∈ part, p c = false := by
  induction s with
  | nil =>
    intro part hpart c hc
    rw [List.splitOnP_nil] at hpart
    simp only [List.mem_singleton] at hpart
    subst hpart
    cases hc
  | cons x xs ih =>
    intro part hpart c hc
    rw [List.splitOnP_cons] at hpart
    by_cases hx : p x = true
    · rw [if_pos hx] at hpart
      rcases List.mem_cons.mp hpart with h | h
      · subst h
        cases hc
      · exact ih part h c hc
    · rw [if_neg hx] at hpart
      rcases hsplit : xs.splitOnP p with _ | ⟨hd, tl⟩
      · exact absurd hsplit (List.splitOnP_ne_nil p xs)
      · rw [hsplit] at hpart ih
        simp only [List.modifyHead] at hpart
        rcases List.mem_cons.mp hpart with h | h
        · subst h
          rcases List.mem_cons.mp hc with h2 | h2
          · subst h2
            exact Bool.eq_false_iff.mpr hx
          · exact ih hd (List.mem_cons_self _ _) c h2
        · exact ih part (List.mem_cons_of_mem _ h) c hc

/-- A field of a string contains no newline, the newline being white
space. -/
theorem hasNewline_of_mem_fields (s part : Str) (h : part ∈ Fields s) :
    hasNewline part = false := by
  rw [hasNewline_eq_false_iff]
  intro hmem
  have hpart : part ∈ s.splitOnP IsSpace := (List.mem_filter.mp h).1
  have := splitOnP_parts IsSpace s part hpart newline hmem
  exact absurd this (by decide)

/-- Joining newline-free parts with a newline-free separator gives a
newline-free string. -/
theorem hasNewline_join (parts : List Str) (sep : Str)
    (hparts : ∀ part ∈ parts, hasNewline part = false) (hsep : hasNewline sep = false) :
    hasNewline (Join parts sep) = false := by
  unfold Join
  induction parts with
  | nil => rfl
  | cons a rest ih =>
    cases rest with
    | nil =>
      have ha := hparts a (List.mem_cons_self _ _)
      simpa [List.intercalate] using ha
    | cons b rest2 =>
      have ha := hparts a (List.mem_cons_self _ _)
      have hrest := ih (fun part hp => hparts part (List.mem_cons_of_mem _ hp))
      have hEq : sep.intercalate (a :: b :: rest2) = a ++ (sep ++ sep.intercalate (b :: rest2)) := by
        simp [List.intercalate]
      rw [hEq]
      exact hasNewline_append _ _ ha (hasNewline_append _ _ hsep hrest)

/-- The string a successful engine call returns contains no newline when the
scanner delivers lines. -/
theorem response_has_no_newline (m : CppEngineManager) (command : Str) (timeout : Duration)
    (env : SendEnv) (hScan : scansLine env = true)
    (hOk : (SendCommandWithCustomTimeout m command timeout env).err = none) :
    hasNewline (SendCommandWithCustomTimeout m command timeout env).response = false := by
  obtain ⟨⟨t, hArr⟩, _⟩ := sendCommandWithCustomTimeout_success m command timeout env hOk
  unfold scansLine at hScan
  rw [hArr] at hScan
  simpa using hScan

/-- Storing a newline-free FEN keeps every stored FEN newline-free. -/
theorem store_no_newline (gs : Str → Option Str) (gameID value : Str)
    (hgs : ∀ id fen, gs id = some fen → hasNewline fen = false)
    (hvalue : hasNewline value = false) :
    ∀ id fen, store gs gameID value id = some fen → hasNewline fen = false := by
  intro id fen h
  unfold store at h
  split at h
  · cases h
    exact hvalue
  · exact hgs id fen h

/-- Every handler keeps the stored FENs newline-free: what it stores is cut
from a line returned by the scanner. -/
theorem serve_no_newline (upper : Char → Char) (s : Server) (req : Request)
    (hScan : scansLine req.env = true)
    (hs : ∀ id fen, s.gameStates id = some fen → hasNewline fen = false) :
    ∀ id fen, (serve upper s req).gameStates id = some fen → hasNewline fen = false := by
  cases req with
  | newGame bindErr fen0 env generated =>
    have hScan2 : scansLine env = true := hScan
    unfold serve handleNewGame
    dsimp only
    split
    · exact hs
    · rename_i hOk
      split
      · exact hs
      · split
        · exact hs
        · exact store_no_newline _ _ _ hs
            (hasNewline_trimPrefix _ _ (response_has_no_newline _ _ _ env hScan2 hOk))
  | makeMove gameID bindErr move env =>
    have hScan2 : scansLine env = true := hScan
    unfold serve handleMakeMove
    dsimp only
    split
    · exact hs
    · rename_i cppCommand _
      split
      · rename_i newBoardFEN hReply
        refine store_no_newline _ _ _ hs ?_
        unfold handleMakeMoveReply at hReply
        split at hReply
        · cases hReply
        · rename_i hOk
          split at hReply
          · cases hReply
          · split at hReply
            · cases hReply
            · cases hReply
              exact hasNewline_trimPrefix _ _
                (response_has_no_newline _ _ _ env hScan2 hOk)
      · exact hs
  | getEngineMove gameID env =>
    unfold serve handleGetEngineMove
    dsimp only
    split
    · exact hs
    · rename_i cppCommand _
      split
      · rename_i engineMove newBoardFEN hReply
        refine store_no_newline _ _ _ hs ?_
        unfold handleGetEngineMoveReply at hReply
        split at hReply
        · cases hReply
        · split at hReply
          · cases hReply
          · split at hReply
            · cases hReply
            · split at hReply
              · rename_i p0 mv p2 p3 rest hFields
                split at hReply
                · cases hReply
                · split at hReply
                  · cases hReply
                  · cases hReply
                    refine hasNewline_join _ _ ?_ (by decide)
                    intro part hpart
                    refine hasNewline_of_mem_fields
                      (SendCommandWithCustomTimeout s.manager cppCommand EngineThinkTime
                        env).response part ?_
                    rw [hFields]
                    exact List.mem_cons_of_mem _ (List.mem_cons_of_mem _
                      (List.mem_cons_of_mem _ hpart))
              · cases hReply
      · exact hs

/-- After any sequence of requests, no stored FEN contains a newline. -/
theorem serveAll_no_newline (upper : Char → Char) (reqs : List Request) (s : Server)
    (hScan : ∀ req ∈ reqs, scansLine req.env = true)
    (hs : ∀ id fen, s.gameStates id = some fen → hasNewline fen = false) :
    ∀ id fen, (serveAll upper s reqs).gameStates id = some fen → hasNewline fen = false := by
  induction reqs generalizing s with
  | nil => exact hs
  | cons req rest ih =>
    unfold serveAll
    rw [List.foldl_cons]
    exact ih (serve upper s req)
      (fun r hr => hScan r (List.mem_cons_of_mem _ hr))
      (serve_no_newline upper s req (hScan req (List.mem_cons_self _ _)) hs)

/-- C9 (counterexample): a newline in the request's FEN, or in the request's
move, is copied into the command; the command line written to the worker is
then two lines.  The rune table used here is `Char.toUpper`, which agrees
with `unicode.ToUpper` on the ASCII runes of this input. -/
theorem C9_newline_in_request_reaches_the_worker :
    newGameCommand Char.toUpper false "8/8/8/8/8/8/8/8 w - - 0 1\nQUIT".toList
      = "NEW_GAME 8/8/8/8/8/8/8/8 w - - 0 1\nQUIT".toList ∧
    hasNewline (newGameCommand Char.toUpper false "8/8/8/8/8/8/8/8 w - - 0 1\nQUIT".toList)
      = true ∧
    makeMoveCommand (fun _ => some "8/8/8/8/8/8/8/8 w - - 0 1".toList) "g1".toList false
        "e2e4\nQUIT".toList
      = some "MAKE_MOVE 8/8/8/8/8/8/8/8 w - - 0 1 e2e4\nQUIT".toList ∧
    hasNewline "MAKE_MOVE 8/8/8/8/8/8/8/8 w - - 0 1 e2e4\nQUIT".toList = true ∧
    (SendCommandWithCustomTimeout NewCppEngineManager
        (newGameCommand Char.toUpper false "8/8/8/8/8/8/8/8 w - - 0 1\nQUIT".toList)
        (5 * Second) silentWorker).manager.stdin.written.count newline = 2 := by
  decide

/-- C9 (amended): the handlers copy the request's FEN and move into the
command unchanged.  When the request's FEN has no newline, the command built
by `handleNewGame` has none; when the request's move has no newline, the
command built by `handleMakeMove` from the stored FEN and the move has none,
in every state the server reaches by serving requests (the stored FEN is cut
from a line returned by the scanner and never contains a newline).  In both
cases the bytes handed to the worker, the command followed by a newline, are
exactly one line. -/
theorem C9_command_is_one_line_when_request_has_no_newline (upper : Char → Char)
    (reqs : List Request) (bindErr : Bool) (fen : Str) (gameID : Str)
    (bindErrMove : Bool) (move : Str)
    (hScan : ∀ req ∈ reqs, scansLine req.env = true)
    (hFen : hasNewline fen = false)
    (hMove : hasNewline move = false) :
    hasNewline (newGameCommand upper bindErr fen) = false ∧
    (newGameCommand upper bindErr fen ++ [newline]).count newline = 1 ∧
    (∀ command,
      makeMoveCommand (serveAll upper startServer reqs).gameStates gameID bindErrMove move
        = some command →
      hasNewline command = false ∧ (command ++ [newline]).count newline = 1) := by
  have hStored : ∀ id stored, (serveAll upper startServer reqs).gameStates id = some stored →
      hasNewline stored = false :=
    serveAll_no_newline upper reqs startServer hScan (by
      intro id stored h
      cases h)
  have hNew : hasNewline (newGameCommand upper bindErr fen) = false := by
    unfold newGameCommand
    apply hasNewline_append _ _ (by decide)
    have hReq : hasNewline (if bindErr = true then (if fen = [] then startFEN else fen)
        else if fen = [] then startFEN else fen) = false := by
      have hStart : hasNewline startFEN = false := by decide
      split
      · split
        · exact hStart
        · exact hFen
      · split
        · exact hStart
        · exact hFen
    have hSend : ∀ (c : Bool) (x : Str), hasNewline x = false →
        hasNewline (if c = true then "DEFAULT".toList else x) = false := by
      intro c x hx
      cases c
      · exact hx
      · exact (by decide : hasNewline "DEFAULT".toList = false)
    exact hSend _ _ hReq
  refine ⟨hNew, count_newline_line _ hNew, ?_⟩
  intro command hCmd
  have hNo : hasNewline command = false := by
    unfold makeMoveCommand at hCmd
    split at hCmd
    · cases hCmd
    · split at hCmd
      · cases hCmd
      · split at hCmd
        · cases hCmd
        · rename_i currentFEN hLook
          cases hCmd
          exact hasNewline_append _ _
            (hasNewline_append _ _
              (hasNewline_append _ _ (by decide) (hStored gameID currentFEN hLook)) (by decide))
            hMove
  exact ⟨hNo, count_newline_line _ hNo⟩

/-- C9 (amended) at a concrete input: a new game from the request FEN
`8/8/8/8/8/8/8/8 w - - 0 1`, answered by the worker and stored under the id
`g1`, then the move `e2e4` on that game. -/
theorem C9_command_is_one_line_when_request_has_no_newline_witness :
    hasNewline (newGameCommand Char.toUpper false "8/8/8/8/8/8/8/8 w - - 0 1".toList) = false ∧
    (newGameCommand Char.toUpper false "8/8/8/8/8/8/8/8 w - - 0 1".toList
      ++ [newline]).count newline = 1 ∧
    makeMoveCommand (serveAll Char.toUpper startServer
        [.newGame false "8/8/8/8/8/8/8/8 w - - 0 1".toList
          (promptWorker "FEN: 8/8/8/8/8/8/8/8 w - - 0 1".toList) (some "g1".toList)]).gameStates
        "g1".toList false "e2e4".toList
      = some "MAKE_MOVE 8/8/8/8/8/8/8/8 w - - 0 1 e2e4".toList ∧
    hasNewline "MAKE_MOVE 8/8/8/8/8/8/8/8 w - - 0 1 e2e4".toList = false ∧
    ("MAKE_MOVE 8/8/8/8/8/8/8/8 w - - 0 1 e2e4".toList ++ [newline]).count newline = 1 :=
  have h := C9_command_is_one_line_when_request_has_no_newline Char.toUpper
    [.newGame false "8/8/8/8/8/8/8/8 w - - 0 1".toList
      (promptWorker "FEN: 8/8/8/8/8/8/8/8 w - - 0 1".toList) (some "g1".toList)]
    false "8/8/8/8/8/8/8/8 w - - 0 1".toList "g1".toList false "e2e4".toList
    (by decide) (by decide) (by decide)
  have hCmd : makeMoveCommand (serveAll Char.toUpper startServer
        [.newGame false "8/8/8/8/8/8/8/8 w - - 0 1".toList
          (promptWorker "FEN: 8/8/8/8/8/8/8/8 w - - 0 1".toList) (some "g1".toList)]).gameStates
        "g1".toList false "e2e4".toList
      = some "MAKE_MOVE 8/8/8/8/8/8/8/8 w - - 0 1 e2e4".toList := by decide
  ⟨h.1, h.2.1, hCmd, (h.2.2 _ hCmd).1, (h.2.2 _ hCmd).2⟩

/-! ## The claims about the stream -/

/-- The manager after a send method on the world is the manager the method
returns. -/
theorem world_send_manager (w : World) (command : Str) (timeout : Duration)
    (env : WorkerEnv) :
    (w.SendCommandWithCustomTimeout command timeout env).2.manager
      = (w.SendCommandWithCustomTimeout command timeout env).1.manager := by
  rfl

/-- A send method that starts no reader leaves the scanner as it was. -/
theorem world_send_stdout_untouched (w : World) (command : Str) (timeout : Duration)
    (env : WorkerEnv)
    (h : (w.SendCommandWithCustomTimeout command timeout env).1.actions
      = [.write (command ++ [newline])]) :
    (w.SendCommandWithCustomTimeout command timeout env).2.stdout = w.stdout := by
  have hc : (w.SendCommandWithCustomTimeout command timeout env).1.actions.contains
      Action.spawnReader = false := by
    rw [h]
    simp
  unfold World.SendCommandWithCustomTimeout World.roundTrip at hc ⊢
  simp only at hc ⊢
  split
  · rw [hc]
    rfl
  · rfl

/-- The actions of a send method that passes the guard: the write of the
command line, followed by the start of the reader if the write succeeded. -/
theorem send_actions (m : CppEngineManager) (command : Str) (timeout : Duration)
    (env : SendEnv) (hAlive : processNotRunning m = false) :
    ((Fprintln m.stdin command env.write).2 = none ∧
      (SendCommandWithCustomTimeout m command timeout env).actions
        = [.write (command ++ [newline]), .spawnReader]) ∨
    ((Fprintln m.stdin command env.write).2 ≠ none ∧
      (SendCommandWithCustomTimeout m command timeout env).actions
        = [.write (command ++ [newline])]) := by
  rcases hW : (Fprintln m.stdin command env.write).2 with _ | e
  · left
    refine ⟨rfl, ?_⟩
    rw [sendCommandWithCustomTimeout_written m command timeout env hAlive hW]
    dsimp only
    split <;> rfl
  · right
    refine ⟨by simp, ?_⟩
    rw [sendCommandWithCustomTimeout_writeFailed m command timeout env e hAlive hW]

/-- C7: when the worker is alive, either send method makes exactly one
`Write` on the input stream, of the command followed by one newline.  When the
pipe is open and the write succeeds, exactly these bytes are appended to the
worker's input and the reader is started.  When the write fails (it reports an
error after `n` bytes, or the pipe is closed) the call returns the send-failed
error with an empty response, starts no reader, and leaves the readers and the
scanner of the output stream as they were. -/
theorem C7_command_line_written_and_no_read_after_failed_write (w : World)
    (command : Str) (timeout : Duration) (env : WorkerEnv) (x : SendResult × World)
    (hCall : x = w.SendCommand command env ∨
      x = w.SendCommandWithCustomTimeout command timeout env)
    (hAlive : processNotRunning w.manager = false) :
    (x.1.actions = [.write (command ++ [newline])] ∨
      x.1.actions = [.write (command ++ [newline]), .spawnReader]) ∧
    (w.manager.stdin.closed = false → env.write = .ok →
      x.2.manager.stdin.written = w.manager.stdin.written ++ (command ++ [newline]) ∧
      x.1.actions = [.write (command ++ [newline]), .spawnReader]) ∧
    (∀ n e, w.manager.stdin.closed = false → env.write = .fail n e →
      x.1.err = some (.sendFailed e) ∧ x.1.response = [] ∧
      x.1.actions = [.write (command ++ [newline])] ∧
      x.2.manager.stdin.written
        = w.manager.stdin.written ++ (command ++ [newline]).take n ∧
      x.2.manager.blockedReaders = w.manager.blockedReaders ∧
      x.2.stdout = w.stdout) ∧
    (w.manager.stdin.closed = true →
      x.1.err = some (.sendFailed errClosed) ∧ x.1.response = [] ∧
      x.1.actions = [.write (command ++ [newline])] ∧
      x.2.manager.stdin.written = w.manager.stdin.written ∧
      x.2.manager.blockedReaders = w.manager.blockedReaders ∧
      x.2.stdout = w.stdout) := by
  have key : ∀ d : Duration, x = w.SendCommandWithCustomTimeout command d env →
      (x.1.actions = [.write (command ++ [newline])] ∨
        x.1.actions = [.write (command ++ [newline]), .spawnReader]) ∧
      (w.manager.stdin.closed = false → env.write = .ok →
        x.2.manager.stdin.written = w.manager.stdin.written ++ (command ++ [newline]) ∧
        x.1.actions = [.write (command ++ [newline]), .spawnReader]) ∧
      (∀ n e, w.manager.stdin.closed = false → env.write = .fail n e →
        x.1.err = some (.sendFailed e) ∧ x.1.response = [] ∧
        x.1.actions = [.write (command ++ [newline])] ∧
        x.2.manager.stdin.written
          = w.manager.stdin.written ++ (command ++ [newline]).take n ∧
        x.2.manager.blockedReaders = w.manager.blockedReaders ∧
        x.2.stdout = w.stdout) ∧
      (w.manager.stdin.closed = true →
        x.1.err = some (.sendFailed errClosed) ∧ x.1.response = [] ∧
        x.1.actions = [.write (command ++ [newline])] ∧
        x.2.manager.stdin.written = w.manager.stdin.written ∧
        x.2.manager.blockedReaders = w.manager.blockedReaders ∧
        x.2.stdout = w.stdout) := by
    intro d hx
    subst hx
    have hFst := world_send_fst w command d env
    have hMan := world_send_manager w command d env
    have hFail : ∀ (e : Str) (stdin1 : Stdin),
        Fprintln w.manager.stdin command env.write = (stdin1, some e) →
        (w.SendCommandWithCustomTimeout command d env).1.err = some (.sendFailed e) ∧
        (w.SendCommandWithCustomTimeout command d env).1.response = [] ∧
        (w.SendCommandWithCustomTimeout command d env).1.actions
          = [.write (command ++ [newline])] ∧
        (w.SendCommandWithCustomTimeout command d env).2.manager.stdin.written
          = stdin1.written ∧
        (w.SendCommandWithCustomTimeout command d env).2.manager.blockedReaders
          = w.manager.blockedReaders ∧
        (w.SendCommandWithCustomTimeout command d env).2.stdout = w.stdout := by
      intro e stdin1 hF
      have hR := sendCommandWithCustomTimeout_writeFailed w.manager command d
        { write := env.write
          read := { arrival := (w.readerSees env).map (fun x => (x.1, x.2.1))
                    timerFirst := env.timerFirst } } e hAlive (by rw [hF])
      rw [← hFst] at hR
      have hActs : (w.SendCommandWithCustomTimeout command d env).1.actions
          = [.write (command ++ [newline])] := by rw [hR]
      refine ⟨by rw [hR], by rw [hR], hActs, ?_, ?_,
        world_send_stdout_untouched w command d env hActs⟩
      · rw [hMan, hR]
        simp only
        rw [hF]
      · rw [hMan, hR]
    refine ⟨?_, ?_, ?_, ?_⟩
    · rcases send_actions w.manager command d
        { write := env.write
          read := { arrival := (w.readerSees env).map (fun x => (x.1, x.2.1))
                    timerFirst := env.timerFirst } } hAlive with h | h
      · right
        rw [hFst]
        exact h.2
      · left
        rw [hFst]
        exact h.2
    · intro hOpen hOk
      have hF : Fprintln w.manager.stdin command env.write
          = ({ w.manager.stdin with
               written := w.manager.stdin.written ++ (command ++ [newline]) }, none) := by
        rw [hOk]
        exact fprintln_open_ok _ _ hOpen
      constructor
      · rw [hMan, hFst]
        exact send_written w.manager command d _ hAlive hOpen hOk
      · rcases send_actions w.manager command d
          { write := env.write
            read := { arrival := (w.readerSees env).map (fun x => (x.1, x.2.1))
                      timerFirst := env.timerFirst } } hAlive with h | h
        · rw [hFst]
          exact h.2
        · exact absurd (by rw [hF]) h.1
    · intro n e hOpen hW
      have hF : Fprintln w.manager.stdin command env.write
          = ({ w.manager.stdin with
               written := w.manager.stdin.written ++ (command ++ [newline]).take n },
             some e) := by
        simp [Fprintln, hOpen, hW]
      exact hFail e _ hF
    · intro hClosed
      have hF : Fprintln w.manager.stdin command env.write
          = (w.manager.stdin, some errClosed) := by
        simp [Fprintln, hClosed]
      exact hFail errClosed _ hF
  rcases hCall with h | h
  · exact key (5 * Second) (by rw [h, world_sendCommand_eq])
  · exact key timeout h

/-- C7 at concrete inputs: `SendCommand` on a fresh world, once with a write
that succeeds and once with a write that fails after three bytes. -/
theorem C7_command_line_written_and_no_read_after_failed_write_witness :
    ((startWorld.SendCommand "NEW_GAME DEFAULT".toList
        { write := .ok, output := none, race := none, timerFirst := false }).2.manager.stdin.written
      = NewCppEngineManager.stdin.written ++ ("NEW_GAME DEFAULT".toList ++ [newline]) ∧
     (startWorld.SendCommand "NEW_GAME DEFAULT".toList
        { write := .ok, output := none, race := none, timerFirst := false }).1.actions
      = [.write ("NEW_GAME DEFAULT".toList ++ [newline]), .spawnReader]) ∧
    ((startWorld.SendCommand "NEW_GAME DEFAULT".toList
        { write := .fail 3 "write |1: broken pipe".toList, output := none, race := none
          timerFirst := false }).1.err
      = some (.sendFailed "write |1: broken pipe".toList) ∧
     (startWorld.SendCommand "NEW_GAME DEFAULT".toList
        { write := .fail 3 "write |1: broken pipe".toList, output := none, race := none
          timerFirst := false }).1.actions
      = [.write ("NEW_GAME DEFAULT".toList ++ [newline])] ∧
     (startWorld.SendCommand "NEW_GAME DEFAULT".toList
        { write := .fail 3 "write |1: broken pipe".toList, output := none, race := none
          timerFirst := false }).2.stdout = startWorld.stdout) :=
  have hOk := (C7_command_line_written_and_no_read_after_failed_write startWorld
    "NEW_GAME DEFAULT".toList 0
    { write := .ok, output := none, race := none, timerFirst := false }
    (startWorld.SendCommand "NEW_GAME DEFAULT".toList
      { write := .ok, output := none, race := none, timerFirst := false })
    (Or.inl rfl) (by decide)).2.1 (by decide) rfl
  have hFail := (C7_command_line_written_and_no_read_after_failed_write startWorld
    "NEW_GAME DEFAULT".toList 0
    { write := .fail 3 "write |1: broken pipe".toList, output := none, race := none
      timerFirst := false }
    (startWorld.SendCommand "NEW_GAME DEFAULT".toList
      { write := .fail 3 "write |1: broken pipe".toList, output := none, race := none
        timerFirst := false })
    (Or.inl rfl) (by decide)).2.2.1 3 "write |1: broken pipe".toList (by decide) rfl
  ⟨hOk, hFail.1, hFail.2.2.1, hFail.2.2.2.2.2⟩

end ChessConsole
